import Mathlib

/-!
Verification of the Birdex core (src/app.py): the image codec
(compress_image), the synchronization procedure (save_discoveries), the
discovery store and the per-user view caches with their read projections
(get_discoveries, discoveries_metadata, get_discoveries_light,
discoveries_gallery).

External libraries are modelled as parameters: PIL and the base64 module
as a PilBackend record of possibly-failing primitives, json.dumps /
json.loads as an abstract serializer pair over an abstract type J of
structured coordinate values, and bleach.clean as an abstract String
transformer.  Everything else is translated statement by statement from
the Python source.  SQLite timestamps become Nat ticks; a request passes
the current tick in as the value CURRENT_TIMESTAMP evaluates to.
-/

set_option autoImplicit false

namespace Birdex

/-! ## Image codec: compress_image (src/app.py lines 242-321) -/

inductive CodecError where
  | invalidInput
  | invalidBase64
  | unsupportedFormat
  | encodeFailure
deriving DecidableEq, Repr

structure CompressResult where
  full : String
  thumbnail : Option String
  size : Nat
deriving DecidableEq, Repr

/-- Abstract backend for the external libraries used by compress_image
(the base64 module and PIL).  A library call that can raise is modelled
as returning none on failure.  toRgb stands for the whole
mode-normalization block (RGBA/LA/P flattened on white), thumbnailFit for
Image.thumbnail with LANCZOS resampling, saveJpeg for saving to an
in-memory JPEG at the given quality with optimize=True. -/
structure PilBackend (Img : Type) where
  b64decode : String → Option (List Nat)
  b64encode : List Nat → String
  openImage : List Nat → Option Img
  toRgb : Img → Img
  thumbnailFit : Img → Nat × Nat → Img
  saveJpeg : Img → Nat → Option (List Nat)

/-- Split a character list at its first comma, like Python split(',', 1)
when a comma is present. -/
def splitFirstComma : List Char → Option (List Char × List Char)
  | [] => none
  | c :: rest =>
      if c = ',' then some ([], rest)
      else (splitFirstComma rest).map (fun p => (c :: p.1, p.2))

def defaultHeader : String := "data:image/jpeg;base64,"

/-- Header extraction at the top of compress_image: if the payload
contains a comma, the part up to the first comma (with the comma
re-appended) becomes the header and image_data is rebound to the rest;
otherwise the default JPEG data-URL header is used and the payload is
kept whole. -/
def stripHeader (d : String) : String × String :=
  match splitFirstComma d.toList with
  | some p => (String.mk p.1 ++ ",", String.mk p.2)
  | none => (defaultHeader, d)

def containsComma (d : String) : Bool := d.toList.contains ','

/-- The structure returned by the except-branch of compress_image: the
current value of image_data, re-prefixed with the default header when it
carries no comma, no thumbnail, size zero. -/
def degradedResult (d : String) : CompressResult :=
  { full := if containsComma d then d else defaultHeader ++ d
    thumbnail := none
    size := 0 }

/-- The body of the try-block of compress_image: empty-payload check,
header stripping, base64 decode, PIL open, RGB normalization, bounded
resize and JPEG re-encode for the primary rendition, then the same
against a fixed 200x200 box at quality 75 for the thumbnail.  Each
failing library call raises; the raise is modelled as Except.error. -/
def compressTry {Img : Type} (pil : PilBackend Img) (maxSize : Nat × Nat)
    (quality : Nat) (d : String) : Except CodecError CompressResult :=
  if d = "" then Except.error CodecError.invalidInput
  else
    let hp := stripHeader d
    match pil.b64decode hp.2 with
    | none => Except.error CodecError.invalidBase64
    | some imgBytes =>
      match pil.openImage imgBytes with
      | none => Except.error CodecError.unsupportedFormat
      | some img0 =>
        let img := pil.toRgb img0
        let imgFull := pil.thumbnailFit img maxSize
        match pil.saveJpeg imgFull quality with
        | none => Except.error CodecError.encodeFailure
        | some fullBytes =>
          let fullData := pil.b64encode fullBytes
          let imgThumb := pil.thumbnailFit img (200, 200)
          match pil.saveJpeg imgThumb 75 with
          | none => Except.error CodecError.encodeFailure
          | some thumbBytes =>
            Except.ok
              { full := hp.1 ++ fullData
                thumbnail := some (hp.1 ++ pil.b64encode thumbBytes)
                size := fullBytes.length }

/-- compress_image: the try-block with the catch-all except branch.  At
the point an exception is raised, the Python local image_data still holds
the whole input if the empty check fired, and the post-comma remainder
after the header was stripped otherwise. -/
def compress_image {Img : Type} (pil : PilBackend Img) (maxSize : Nat × Nat)
    (quality : Nat) (d : String) : CompressResult :=
  match compressTry pil maxSize quality d with
  | Except.ok r => r
  | Except.error _ => degradedResult (if d = "" then d else (stripHeader d).2)

/-! ## Data model (init_db, src/app.py lines 92-194)

Rows of the discoveries and photos tables.  Columns never read by any
query in scope (photos.updated_at) are omitted.  AUTOINCREMENT ids are
modelled with nextDiscId / nextPhotoId counters (sqlite assigns ids
starting at 1). -/

structure DiscRow where
  id : Nat
  user_id : Nat
  bird_number : String
  discovered_at : Nat
  updated_at : Nat
deriving DecidableEq, Repr

/-- The non-key columns of a photos row, exactly the tuple bound by the
INSERT INTO photos statement of save_discoveries. -/
structure PhotoFields where
  photo_data : String
  photo_thumbnail : Option String
  file_size : Nat
  location : String
  city : String
  region : String
  country : String
  coordinates : String
  date : String
  sex : String
  note : String
deriving DecidableEq, Repr

structure PhotoRow where
  id : Nat
  discovery_id : Nat
  user_id : Nat
  bird_number : String
  fields : PhotoFields
  created_at : Nat
deriving DecidableEq, Repr

structure Store where
  discoveries : List DiscRow
  photos : List PhotoRow
  nextDiscId : Nat
  nextPhotoId : Nat
deriving DecidableEq, Repr

/-- A coordinates value in a request or a projection: either a plain
string (the default '' included) or a structured JSON object of the
abstract type J. -/
inductive CoordVal (J : Type) where
  | str (s : String)
  | obj (j : J)
deriving DecidableEq, Repr

/-- One element of bird_data['photos'] in the POST /api/discoveries
payload.  photo and id model the presence of the corresponding keys;
every free-text key k read with photo_data.get(k, '') is modelled as a
plain String whose absent value is ''. -/
structure PhotoEntry (J : Type) where
  photo : Option String
  id : Option Nat
  thumbnail : Option String
  location : String
  city : String
  region : String
  country : String
  coordinates : CoordVal J
  date : String
  sex : String
  note : String
deriving DecidableEq, Repr

/-- One value of the species-to-record input mapping: photos is some
list when bird_data carries a 'photos' key holding a list. -/
structure BirdData (J : Type) where
  photos : Option (List (PhotoEntry J))
deriving DecidableEq, Repr

/-! ## View cache (flask_caching SimpleCache)

The code keys the shared cache with the strings discoveries_v2_{u},
metadata_v2_{u} and discoveries_light_{u}; the paginated gallery is never
cached.  Since the three prefixes are distinct, the cache is modelled as
three per-user maps.  Entries are modelled without expiry, i.e. as if
every TTL were still running. -/

def cacheGet {A : Type} (m : List (Nat × A)) (u : Nat) : Option A :=
  (m.find? (fun p => p.1 == u)).map Prod.snd

def cacheSet {A : Type} (m : List (Nat × A)) (u : Nat) (v : A) : List (Nat × A) :=
  (u, v) :: m.filter (fun p => p.1 != u)

def cacheDel {A : Type} (m : List (Nat × A)) (u : Nat) : List (Nat × A) :=
  m.filter (fun p => p.1 != u)

/-- A photo record of the full / legacy-light projections, minus the id
key (the content the client submitted, as stored and re-read). -/
structure PhotoProjContent (J : Type) where
  photo : String
  thumbnail : Option String
  location : String
  city : String
  region : String
  country : String
  coordinates : CoordVal J
  date : String
  sex : String
  note : String
deriving DecidableEq, Repr

/-- A photo record of the full / legacy-light projections: the photo_id
column plus the content keys. -/
structure PhotoProj (J : Type) where
  id : Nat
  content : PhotoProjContent J
deriving DecidableEq, Repr

structure FullEntry (J : Type) where
  discovered_at : Nat
  photos : List (PhotoProj J)
deriving DecidableEq, Repr

abbrev FullView (J : Type) := List (String × FullEntry J)

structure LightEntry (J : Type) where
  photos : List (PhotoProj J)
deriving DecidableEq, Repr

abbrev LightView (J : Type) := List (String × LightEntry J)

structure MetaBird where
  photo_count : Nat
  dates : List String
  has_gps : Bool
deriving DecidableEq, Repr

structure MetaView where
  discovered_count : Nat
  total_photos : Nat
  total_size_mb : ℚ
  birds : List (String × MetaBird)
deriving DecidableEq, Repr

structure GalleryItem where
  id : Nat
  bird_number : String
  photo_thumbnail : Option String
  date : String
  location : String
  city : String
deriving DecidableEq, Repr

structure GalleryView where
  photos : List GalleryItem
  total : Nat
  page : Nat
  per_page : Nat
  total_pages : Nat
deriving DecidableEq, Repr

structure Caches (J : Type) where
  v2 : List (Nat × FullView J)
  meta : List (Nat × MetaView)
  light : List (Nat × LightView J)
deriving DecidableEq, Repr

def emptyCaches (J : Type) : Caches J := ⟨[], [], []⟩

def invalidateUser {J : Type} (ch : Caches J) (u : Nat) : Caches J :=
  ⟨cacheDel ch.v2 u, cacheDel ch.meta u, cacheDel ch.light u⟩

/-! ## Helpers shared by the write and read paths -/

/-- sanitize_input (src/app.py lines 79-83): falsy or non-string values
pass through unchanged, otherwise bleach.clean strips all markup.  bleach
is the abstract sanitizer parameter. -/
def sanitize_input (bleach : String → String) (t : String) : String :=
  if t = "" then t else bleach t

/-- Coordinate serialization in save_discoveries (lines 627-630): a dict
is converted with json.dumps before storage, a string is stored as is. -/
def serializeCoordinates {J : Type} (dumps : J → String) : CoordVal J → String
  | CoordVal.str s => s
  | CoordVal.obj j => dumps j

/-- Coordinate deserialization in the read projections (lines 533-539):
a non-empty stored string is parsed with json.loads, falling back to ''
on a parse error; an empty stored string is kept unchanged. -/
def parseCoordinates {J : Type} (loads : String → Option J) (s : String) : CoordVal J :=
  if s = "" then CoordVal.str s
  else
    match loads s with
    | some j => CoordVal.obj j
    | none => CoordVal.str ""

/-- The photo-skipping guard of save_discoveries (line 611): an entry
whose 'photo' key is missing or falsy is skipped silently. -/
def hasPayload {J : Type} (e : PhotoEntry J) : Bool :=
  match e.photo with
  | some s => !(s = "")
  | none => false

/-- Per-entry processing in save_discoveries (lines 610-651): skip
payload-less entries; compress fresh photos (no 'id' key) through the
codec; keep pre-compressed entries (with an 'id' key) verbatim with size
zero; serialize coordinates; sanitize the free-text fields. -/
def processEntry {J Img : Type} (pil : PilBackend Img) (dumps : J → String)
    (bleach : String → String) (e : PhotoEntry J) : Option PhotoFields :=
  match e.photo with
  | none => none
  | some payload =>
    if payload = "" then none
    else
      let pts :=
        if e.id.isNone then
          let c := compress_image pil (800, 800) 85 payload
          (c.full, c.thumbnail, c.size)
        else
          (payload, some (e.thumbnail.getD ""), 0)
      some
        { photo_data := pts.1
          photo_thumbnail := pts.2.1
          file_size := pts.2.2
          location := sanitize_input bleach e.location
          city := sanitize_input bleach e.city
          region := sanitize_input bleach e.region
          country := sanitize_input bleach e.country
          coordinates := serializeCoordinates dumps e.coordinates
          date := sanitize_input bleach e.date
          sex := sanitize_input bleach e.sex
          note := sanitize_input bleach e.note }

/-! ## SQL primitives of save_discoveries -/

def findDiscovery (st : Store) (u : Nat) (b : String) : Option DiscRow :=
  st.discoveries.find? (fun d => d.user_id == u && d.bird_number == b)

def insertDiscovery (u : Nat) (b : String) (now : Nat) (st : Store) : Store :=
  { st with
    discoveries := st.discoveries ++ [⟨st.nextDiscId, u, b, now, now⟩]
    nextDiscId := st.nextDiscId + 1 }

def touchDiscovery (did : Nat) (now : Nat) (st : Store) : Store :=
  { st with
    discoveries := st.discoveries.map
      (fun d => if d.id == did then { d with updated_at := now } else d) }

def deletePhotos (did : Nat) (u : Nat) (st : Store) : Store :=
  { st with
    photos := st.photos.filter (fun p => !(p.discovery_id == did && p.user_id == u)) }

def insertPhoto (did : Nat) (u : Nat) (b : String) (now : Nat) (f : PhotoFields)
    (st : Store) : Store :=
  { st with
    photos := st.photos ++ [⟨st.nextPhotoId, did, u, b, f, now⟩]
    nextPhotoId := st.nextPhotoId + 1 }

/-! ## The synchronization procedure (save_discoveries, lines 560-668)

The whole request runs on one connection whose uncommitted state is the
working Store inside Tx; the durable store only changes when conn.commit()
runs.  A FailOracle decides, per executed SQL statement, whether sqlite
raises there; the except branch then rolls back, so the durable store is
the one from before the request. -/

abbrev FailOracle := Nat → Bool

def noFail : FailOracle := fun _ => false

structure Tx where
  store : Store
  k : Nat
deriving DecidableEq, Repr

/-- Execute one SQL statement against the open transaction: the oracle
may make it raise, otherwise it updates the working store. -/
def chkDo (fail : FailOracle) (t : Tx) (f : Store → Store) : Except Unit Tx :=
  if fail t.k then Except.error () else Except.ok { store := f t.store, k := t.k + 1 }

/-- The per-species body of the save_discoveries loop (lines 581-651):
look up or create the Discovery (touching updated_at when it exists),
delete the species' photo rows, then insert one row per kept photo
entry. -/
def syncBird {J Img : Type} (pil : PilBackend Img) (dumps : J → String)
    (bleach : String → String) (fail : FailOracle) (u : Nat) (now : Nat)
    (t0 : Tx) (b : String) (bd : BirdData J) : Except Unit Tx := do
  let t1 ← chkDo fail t0 id
  let r ←
    match findDiscovery t1.store u b with
    | none => do
        let did := t1.store.nextDiscId
        let t ← chkDo fail t1 (insertDiscovery u b now)
        pure (did, t)
    | some d => do
        let t ← chkDo fail t1 (touchDiscovery d.id now)
        pure (d.id, t)
  let t3 ← chkDo fail r.2 (deletePhotos r.1 u)
  match bd.photos with
  | none => pure t3
  | some entries =>
      entries.foldlM
        (fun t e =>
          match processEntry pil dumps bleach e with
          | none => pure t
          | some f => chkDo fail t (insertPhoto r.1 u b now f))
        t3

inductive SaveOutcome where
  | success
  | unauthenticated
  | noData
  | persistenceFailure
deriving DecidableEq, Repr

/-- save_discoveries (lines 560-668): 401 without a bound identity, 400
on an empty payload, then the per-species loop inside one transaction;
on success commit and invalidate the three cached views of this owner;
on any raise roll back and answer 500.  The returned triple is the
response outcome, the durable store, and the cache state. -/
def save_discoveries {J Img : Type} (pil : PilBackend Img) (dumps : J → String)
    (bleach : String → String) (fail : FailOracle) (session : Option Nat)
    (data : List (String × BirdData J)) (now : Nat) (st : Store) (ch : Caches J) :
    SaveOutcome × Store × Caches J :=
  match session with
  | none => (SaveOutcome.unauthenticated, st, ch)
  | some u =>
    if data.isEmpty then (SaveOutcome.noData, st, ch)
    else
      match data.foldlM (fun t p => syncBird pil dumps bleach fail u now t p.1 p.2) ⟨st, 0⟩ with
      | Except.error _ => (SaveOutcome.persistenceFailure, st, ch)
      | Except.ok t =>
        if fail t.k then (SaveOutcome.persistenceFailure, st, ch)
        else (SaveOutcome.success, t.store, invalidateUser ch u)

/-- The store effect of one iteration of the save_discoveries loop when
no statement fails. -/
def syncBirdPure {J Img : Type} (pil : PilBackend Img) (dumps : J → String)
    (bleach : String → String) (u : Nat) (now : Nat) (st : Store) (b : String)
    (bd : BirdData J) : Store :=
  let r :=
    match findDiscovery st u b with
    | none => (st.nextDiscId, insertDiscovery u b now st)
    | some d => (d.id, touchDiscovery d.id now st)
  let st2 := deletePhotos r.1 u r.2
  match bd.photos with
  | none => st2
  | some entries =>
      entries.foldl
        (fun s e =>
          match processEntry pil dumps bleach e with
          | none => s
          | some f => insertPhoto r.1 u b now f s)
        st2

/-- The store effect of a whole successful save_discoveries request. -/
def runSyncPure {J Img : Type} (pil : PilBackend Img) (dumps : J → String)
    (bleach : String → String) (u : Nat) (now : Nat) (st : Store)
    (data : List (String × BirdData J)) : Store :=
  data.foldl (fun s p => syncBirdPure pil dumps bleach u now s p.1 p.2) st

/-! ## Read projections (lines 489-558, 674-731, 737-778, 784-845)

The SELECT of the full and legacy-light views joins the user's
discoveries with their photos and orders by (d.bird_number,
p.created_at); this is modelled as a stable insertion sort of the
filtered rows — equal keys keep table (rowid) order, which is how the
rows come back when the sort keys tie. -/

def discOrder (a b : DiscRow) : Prop := a.bird_number ≤ b.bird_number

instance : DecidableRel discOrder :=
  fun a b => inferInstanceAs (Decidable (a.bird_number ≤ b.bird_number))

def photoOrder (a b : PhotoRow) : Prop := a.created_at ≤ b.created_at

instance : DecidableRel photoOrder :=
  fun a b => inferInstanceAs (Decidable (a.created_at ≤ b.created_at))

/-- Most-recent-first ordering of the gallery (ORDER BY p.created_at
DESC). -/
def photoOrderDesc (a b : PhotoRow) : Prop := b.created_at ≤ a.created_at

instance : DecidableRel photoOrderDesc :=
  fun a b => inferInstanceAs (Decidable (b.created_at ≤ a.created_at))

def discsOfUser (st : Store) (u : Nat) : List DiscRow :=
  st.discoveries.filter (fun d => d.user_id == u)

def discsSorted (st : Store) (u : Nat) : List DiscRow :=
  List.insertionSort discOrder (discsOfUser st u)

def photosOfDisc (st : Store) (did : Nat) : List PhotoRow :=
  st.photos.filter (fun p => p.discovery_id == did)

def photosSorted (st : Store) (did : Nat) : List PhotoRow :=
  List.insertionSort photoOrder (photosOfDisc st did)

/-- The row stream of the full / legacy-light SELECT: each discovery of
the user, LEFT JOINed with its photos. -/
def joinedRows (st : Store) (u : Nat) : List (DiscRow × Option PhotoRow) :=
  (discsSorted st u).flatMap
    (fun d =>
      match photosSorted st d.id with
      | [] => [(d, none)]
      | ps => ps.map (fun p => (d, some p)))

/-- Shape one photos row into a projection record, deserializing the
stored coordinates text. -/
def fieldsProj {J : Type} (loads : String → Option J) (f : PhotoFields) :
    PhotoProjContent J :=
  { photo := f.photo_data
    thumbnail := f.photo_thumbnail
    location := f.location
    city := f.city
    region := f.region
    country := f.country
    coordinates := parseCoordinates loads f.coordinates
    date := f.date
    sex := f.sex
    note := f.note }

/-- The Python projection guard is `if row['photo_id']:` — a NULL
photo_id (photo-less LEFT JOIN row) and the falsy id 0 both skip the
photo. -/
def projPhotoRow {J : Type} (loads : String → Option J)
    (r : DiscRow × Option PhotoRow) : Option (PhotoProj J) :=
  match r.2 with
  | none => none
  | some p => if p.id = 0 then none else some ⟨p.id, fieldsProj loads p.fields⟩

/-- One step of the dict-building loop of get_discoveries (lines
521-553): ensure the bird key exists (with discovered_at from its first
row), then append the row's photo when present. -/
def addRowFull {J : Type} (loads : String → Option J) (m : FullView J)
    (r : DiscRow × Option PhotoRow) : FullView J :=
  let m' :=
    if (List.lookup r.1.bird_number m).isSome then m
    else m ++ [(r.1.bird_number, ⟨r.1.discovered_at, []⟩)]
  match projPhotoRow loads r with
  | none => m'
  | some ph =>
      m'.map (fun kv =>
        if kv.1 = r.1.bird_number then (kv.1, ⟨kv.2.discovered_at, kv.2.photos ++ [ph]⟩)
        else kv)

def buildFull {J : Type} (loads : String → Option J)
    (rows : List (DiscRow × Option PhotoRow)) : FullView J :=
  rows.foldl (addRowFull loads) []

/-- One step of the dict-building loop of get_discoveries_light (lines
814-842), identical to the full view minus discovered_at. -/
def addRowLight {J : Type} (loads : String → Option J) (m : LightView J)
    (r : DiscRow × Option PhotoRow) : LightView J :=
  let m' :=
    if (List.lookup r.1.bird_number m).isSome then m
    else m ++ [(r.1.bird_number, ⟨[]⟩)]
  match projPhotoRow loads r with
  | none => m'
  | some ph =>
      m'.map (fun kv =>
        if kv.1 = r.1.bird_number then (kv.1, ⟨kv.2.photos ++ [ph]⟩) else kv)

def buildLight {J : Type} (loads : String → Option J)
    (rows : List (DiscRow × Option PhotoRow)) : LightView J :=
  rows.foldl (addRowLight loads) []

inductive ApiErr where
  | unauthenticated
deriving DecidableEq, Repr

/-- GET /api/discoveries (lines 489-558): 401 without a session, then a
cache probe — Python tests the cached value for truthiness, so an empty
cached dict falls through and is recomputed — then the join, the
projection, and cache population. -/
def get_discoveries {J : Type} (loads : String → Option J) (session : Option Nat)
    (st : Store) (ch : Caches J) : Except ApiErr (FullView J) × Caches J :=
  match session with
  | none => (Except.error ApiErr.unauthenticated, ch)
  | some u =>
    let cached := cacheGet ch.v2 u
    match cached with
    | some r =>
      if r.isEmpty then
        let fresh := buildFull loads (joinedRows st u)
        (Except.ok fresh, { ch with v2 := cacheSet ch.v2 u fresh })
      else (Except.ok r, ch)
    | none =>
      let fresh := buildFull loads (joinedRows st u)
      (Except.ok fresh, { ch with v2 := cacheSet ch.v2 u fresh })

/-- GET /api/discoveries/light (lines 784-845). -/
def get_discoveries_light {J : Type} (loads : String → Option J)
    (session : Option Nat) (st : Store) (ch : Caches J) :
    Except ApiErr (LightView J) × Caches J :=
  match session with
  | none => (Except.error ApiErr.unauthenticated, ch)
  | some u =>
    let cached := cacheGet ch.light u
    match cached with
    | some r =>
      if r.isEmpty then
        let fresh := buildLight loads (joinedRows st u)
        (Except.ok fresh, { ch with light := cacheSet ch.light u fresh })
      else (Except.ok r, ch)
    | none =>
      let fresh := buildLight loads (joinedRows st u)
      (Except.ok fresh, { ch with light := cacheSet ch.light u fresh })

/-- The join rows with a photo, as used by the two aggregate queries of
discoveries_metadata. -/
def metaJoin (st : Store) (u : Nat) : List PhotoRow :=
  (discsOfUser st u).flatMap (fun d => photosOfDisc st d.id)

/-- GROUP_CONCAT of the per-bird date strings followed by the Python
split: an empty concatenation is falsy and yields []. -/
def datesOf (ps : List PhotoRow) : List String :=
  let s := String.intercalate "," (ps.map (fun p => p.fields.date))
  if s = "" then [] else s.splitOn ","

def metaBirdOf (ps : List PhotoRow) : MetaBird :=
  { photo_count := ps.length
    dates := datesOf ps
    has_gps := ps.any (fun p => !(p.fields.coordinates = "")) }

/-- round(x / (1024*1024), 2) over the summed primary-rendition sizes
(Python rounds a float; exact half-cent ties are not relied on by any
theorem here). -/
def mbOf (totalSize : Nat) : ℚ :=
  ((round ((totalSize * 100 : ℚ) / (1024 * 1024)) : ℤ) : ℚ) / 100

/-- The fresh computation of GET /api/discoveries/metadata (lines
687-727). -/
def computeMetadata (st : Store) (u : Nat) : MetaView :=
  let rows := metaJoin st u
  let birds := ((discsOfUser st u).map (fun d => d.bird_number)).dedup
  { discovered_count := birds.length
    total_photos := rows.length
    total_size_mb := mbOf ((rows.map (fun p => p.fields.file_size)).sum)
    birds := birds.map (fun b =>
      (b, metaBirdOf (rows.filter (fun p => p.bird_number == b)))) }

/-- GET /api/discoveries/metadata (lines 674-731): cache probe (the
metadata dict is never falsy, so a present entry is always served),
aggregate computation, cache population. -/
def discoveries_metadata {J : Type} (session : Option Nat) (st : Store)
    (ch : Caches J) : Except ApiErr MetaView × Caches J :=
  match session with
  | none => (Except.error ApiErr.unauthenticated, ch)
  | some u =>
    match cacheGet ch.meta u with
    | some r => (Except.ok r, ch)
    | none =>
      let fresh := computeMetadata st u
      (Except.ok fresh, { ch with meta := cacheSet ch.meta u fresh })

/-- GET /api/discoveries/gallery (lines 737-778): no cache is involved;
count, page slice ordered most-recent-first, ceiling-division page
count.  The unused cache parameter mirrors the globally visible cache the
handler never touches. -/
def discoveries_gallery {J : Type} (session : Option Nat) (page perPage : Nat)
    (st : Store) (ch : Caches J) : Except ApiErr GalleryView × Caches J :=
  match session with
  | none => (Except.error ApiErr.unauthenticated, ch)
  | some u =>
    let mine := st.photos.filter (fun p => p.user_id == u)
    let total := mine.length
    let sorted := List.insertionSort photoOrderDesc mine
    let pagePhotos := (sorted.drop ((page - 1) * perPage)).take perPage
    (Except.ok
      { photos := pagePhotos.map (fun p =>
          { id := p.id
            bird_number := p.bird_number
            photo_thumbnail := p.fields.photo_thumbnail
            date := p.fields.date
            location := p.fields.location
            city := p.fields.city })
        total := total
        page := page
        per_page := perPage
        total_pages := (total + perPage - 1) / perPage },
     ch)

/-! ## Store well-formedness

Invariants of every store reachable through init_db and the write path:
distinct discovery ids, the UNIQUE(user_id, bird_number) constraint of
the discoveries table, the id counter strictly ahead of every assigned
discovery id, every photo row referencing a discovery row that agrees
with the photo's redundant (user_id, bird_number) columns, and sqlite
row ids starting at 1. -/

def Store.WF (st : Store) : Prop :=
  st.discoveries.Pairwise (fun a b => a.id ≠ b.id) ∧
  st.discoveries.Pairwise (fun a b => ¬(a.user_id = b.user_id ∧ a.bird_number = b.bird_number)) ∧
  (∀ d ∈ st.discoveries, d.id < st.nextDiscId) ∧
  (∀ p ∈ st.photos, ∃ d ∈ st.discoveries,
    d.id = p.discovery_id ∧ d.user_id = p.user_id ∧ d.bird_number = p.bird_number) ∧
  1 ≤ st.nextPhotoId

instance storeWFDecidable (st : Store) : Decidable st.WF := by
  unfold Store.WF
  infer_instance

/-- The photo rows of one (user, species) pair. -/
def photosUB (st : Store) (u : Nat) (b : String) : List PhotoRow :=
  st.photos.filter (fun p => p.user_id == u && p.bird_number == b)

/-- The discovery rows of one (user, species) pair. -/
def discsUB (st : Store) (u : Nat) (b : String) : List DiscRow :=
  st.discoveries.filter (fun d => d.user_id == u && d.bird_number == b)

/-- The discovery id the save_discoveries loop binds for a species: the
existing row's id, or the id the fresh INSERT receives. -/
def didOf (st : Store) (u : Nat) (b : String) : Nat :=
  match findDiscovery st u b with
  | none => st.nextDiscId
  | some d => d.id

/-- The kept, processed photo fields of one species of the request. -/
def newFieldsOf {J Img : Type} (pil : PilBackend Img) (dumps : J → String)
    (bleach : String → String) (bd : BirdData J) : List PhotoFields :=
  (bd.photos.getD []).filterMap (processEntry pil dumps bleach)

/-- The photo rows the insert loop of one species appends, ids counting
up from i. -/
def rowsFrom (did u : Nat) (b : String) (now : Nat) : Nat → List PhotoFields → List PhotoRow
  | _, [] => []
  | i, f :: fs => ⟨i, did, u, b, f, now⟩ :: rowsFrom did u b now (i + 1) fs

/-! ## General list lemmas -/

theorem filter_flatMap {α β : Type} (g : α → List β) (p : β → Bool) (l : List α) :
    (l.flatMap g).filter p = l.flatMap (fun a => (g a).filter p) := by
  induction l with
  | nil => rfl
  | cons x xs ih => simp only [List.flatMap_cons, List.filter_append, ih]

theorem flatMap_ite_filter {α β : Type} (g : α → List β) (q : α → Bool) (l : List α) :
    l.flatMap (fun a => if q a then g a else []) = (l.filter q).flatMap g := by
  induction l with
  | nil => rfl
  | cons x xs ih =>
      by_cases h : q x <;> simp [List.filter_cons, h, ih]

theorem filterMap_all_some {α β : Type} (f : α → Option β) (h : α → β) (l : List α)
    (hall : ∀ x ∈ l, f x = some (h x)) : l.filterMap f = l.map h := by
  induction l with
  | nil => rfl
  | cons x xs ih =>
      rw [List.filterMap_cons, hall x (List.mem_cons_self x xs), List.map_cons,
        ih (fun y hy => hall y (List.mem_cons_of_mem x hy))]

theorem lookup_append_str {β : Type} (a : String) (l m : List (String × β)) :
    List.lookup a (l ++ m) =
      match List.lookup a l with
      | some v => some v
      | none => List.lookup a m := by
  induction l with
  | nil => rfl
  | cons kv l ih =>
      by_cases h : a == kv.1 <;> simp [List.lookup, h, ih]

theorem filter_eq_singleton_of_find? {α : Type} (p : α → Bool) (l : List α) (a : α)
    (hfind : l.find? p = some a)
    (hpw : l.Pairwise (fun x y => ¬(p x = true ∧ p y = true))) :
    l.filter p = [a] := by
  induction l with
  | nil => simp at hfind
  | cons x xs ih =>
      rcases List.pairwise_cons.mp hpw with ⟨hx, hxs⟩
      by_cases h : p x
      · rw [List.find?_cons_of_pos _ h] at hfind
        cases hfind
        rw [List.filter_cons_of_pos h]
        have : xs.filter p = [] := by
          rw [List.filter_eq_nil_iff]
          intro y hy hpy
          exact hx y hy ⟨h, hpy⟩
        rw [this]
      · rw [List.find?_cons_of_neg _ h] at hfind
        rw [List.filter_cons_of_neg h]
        exact ih hfind hxs

theorem find?_of_filter_singleton {α : Type} (p : α → Bool) (l : List α) (a : α)
    (h : l.filter p = [a]) : l.find? p = some a := by
  induction l with
  | nil => simp at h
  | cons x xs ih =>
      by_cases hx : p x
      · rw [List.filter_cons_of_pos hx] at h
        injection h with h1 h2
        subst h1
        rw [List.find?_cons_of_pos _ hx]
      · rw [List.filter_cons_of_neg hx] at h
        rw [List.find?_cons_of_neg _ hx]
        exact ih h

theorem mem_eq_of_pairwise_ne {α : Type} {R : α → α → Prop} (hsym : Symmetric R)
    {l : List α} (hpw : l.Pairwise R) {a b : α} (ha : a ∈ l) (hb : b ∈ l)
    (hR : ¬R a b) : a = b := by
  by_contra hne
  exact hR (hpw.forall hsym ha hb hne)

/-! ## Shape of the pure write path -/

section WriteShape

variable {J Img : Type} (pil : PilBackend Img) (dumps : J → String) (bleach : String → String)

theorem photoFold_shape (did u : Nat) (b : String) (now : Nat)
    (entries : List (PhotoEntry J)) (st : Store) :
    entries.foldl
      (fun s e =>
        match processEntry pil dumps bleach e with
        | none => s
        | some f => insertPhoto did u b now f s) st
    = { st with
        photos := st.photos ++
          rowsFrom did u b now st.nextPhotoId (entries.filterMap (processEntry pil dumps bleach))
        nextPhotoId :=
          st.nextPhotoId + (entries.filterMap (processEntry pil dumps bleach)).length } := by
  induction entries generalizing st with
  | nil => cases st; simp [rowsFrom]
  | cons e es ih =>
      rw [List.foldl_cons, List.filterMap_cons]
      cases hpe : processEntry pil dumps bleach e with
      | none =>
          simp only [hpe]
          rw [ih]
      | some f =>
          simp only [hpe]
          rw [ih]
          cases st
          simp [insertPhoto, rowsFrom, Store.mk.injEq, List.append_assoc]
          omega

theorem syncBirdPure_shape_found {u now : Nat} {st : Store} {b : String} {d : DiscRow}
    (bd : BirdData J) (hfind : findDiscovery st u b = some d) :
    syncBirdPure pil dumps bleach u now st b bd =
    { discoveries := st.discoveries.map
        (fun x => if x.id == d.id then { x with updated_at := now } else x)
      photos := (st.photos.filter (fun p => !(p.discovery_id == d.id && p.user_id == u))) ++
        rowsFrom d.id u b now st.nextPhotoId (newFieldsOf pil dumps bleach bd)
      nextDiscId := st.nextDiscId
      nextPhotoId := st.nextPhotoId + (newFieldsOf pil dumps bleach bd).length } := by
  unfold syncBirdPure
  rw [hfind]
  cases hbp : bd.photos with
  | none =>
      simp only [newFieldsOf, hbp, Option.getD_none, List.filterMap_nil, rowsFrom]
      cases st
      simp [touchDiscovery, deletePhotos]
  | some entries =>
      simp only [newFieldsOf, hbp, Option.getD_some]
      rw [photoFold_shape]
      cases st
      simp [touchDiscovery, deletePhotos]

theorem syncBirdPure_shape_new {u now : Nat} {st : Store} {b : String}
    (bd : BirdData J) (hfind : findDiscovery st u b = none) :
    syncBirdPure pil dumps bleach u now st b bd =
    { discoveries := st.discoveries ++ [⟨st.nextDiscId, u, b, now, now⟩]
      photos := (st.photos.filter (fun p => !(p.discovery_id == st.nextDiscId && p.user_id == u))) ++
        rowsFrom st.nextDiscId u b now st.nextPhotoId (newFieldsOf pil dumps bleach bd)
      nextDiscId := st.nextDiscId + 1
      nextPhotoId := st.nextPhotoId + (newFieldsOf pil dumps bleach bd).length } := by
  unfold syncBirdPure
  rw [hfind]
  cases hbp : bd.photos with
  | none =>
      simp only [newFieldsOf, hbp, Option.getD_none, List.filterMap_nil, rowsFrom]
      cases st
      simp [insertDiscovery, deletePhotos]
  | some entries =>
      simp only [newFieldsOf, hbp, Option.getD_some]
      rw [photoFold_shape]
      cases st
      simp [insertDiscovery, deletePhotos]

theorem rowsFrom_mem {did u : Nat} {b : String} {now : Nat} :
    ∀ (fs : List PhotoFields) (i : Nat) (r : PhotoRow), r ∈ rowsFrom did u b now i fs →
      r.discovery_id = did ∧ r.user_id = u ∧ r.bird_number = b ∧ r.created_at = now ∧ i ≤ r.id
  | [], _, _, hr => by simp [rowsFrom] at hr
  | f :: fs, i, r, hr => by
      rw [rowsFrom] at hr
      rcases List.mem_cons.mp hr with h | h
      · subst h; exact ⟨rfl, rfl, rfl, rfl, Nat.le_refl i⟩
      · have := rowsFrom_mem fs (i + 1) r h
        exact ⟨this.1, this.2.1, this.2.2.1, this.2.2.2.1,
          Nat.le_of_succ_le this.2.2.2.2⟩

theorem rowsFrom_map_fields {did u : Nat} {b : String} {now : Nat} :
    ∀ (fs : List PhotoFields) (i : Nat),
      (rowsFrom did u b now i fs).map (fun r => r.fields) = fs
  | [], _ => rfl
  | f :: fs, i => by
      rw [rowsFrom, List.map_cons, rowsFrom_map_fields fs (i + 1)]

end WriteShape

/-! ## Consequences of well-formedness for the write path -/

theorem findDiscovery_mem {st : Store} {u : Nat} {b : String} {d : DiscRow}
    (h : findDiscovery st u b = some d) :
    d ∈ st.discoveries ∧ d.user_id = u ∧ d.bird_number = b := by
  unfold findDiscovery at h
  have hm := List.mem_of_find?_eq_some h
  have hp := List.find?_some h
  simp only [Bool.and_eq_true, beq_iff_eq] at hp
  exact ⟨hm, hp.1, hp.2⟩

theorem findDiscovery_none {st : Store} {u : Nat} {b : String}
    (h : findDiscovery st u b = none) :
    ∀ d ∈ st.discoveries, ¬(d.user_id = u ∧ d.bird_number = b) := by
  unfold findDiscovery at h
  rw [List.find?_eq_none] at h
  intro d hd hpairHyp
  have := h d hd
  simp [hpairHyp.1, hpairHyp.2] at this

theorem discRow_id_symm : Symmetric (fun a b : DiscRow => a.id ≠ b.id) :=
  fun _ _ h => fun e => h e.symm

theorem discRow_pair_symm :
    Symmetric (fun a b : DiscRow => ¬(a.user_id = b.user_id ∧ a.bird_number = b.bird_number)) :=
  fun _ _ h => fun e => h ⟨e.1.symm, e.2.symm⟩

/-- Under the referential-integrity and uniqueness invariants, the DELETE
predicate of save_discoveries (discovery_id, user_id) selects exactly the
(user, species) photo rows when the discovery exists. -/
theorem photo_pred_eq_found {st : Store} {u : Nat} {b : String} {d : DiscRow}
    (hwf : st.WF) (hfind : findDiscovery st u b = some d) :
    ∀ p ∈ st.photos,
      (p.discovery_id == d.id && p.user_id == u) = (p.user_id == u && p.bird_number == b) := by
  obtain ⟨hid, hpairU, _, hrefs, _⟩ := hwf
  obtain ⟨hdmem, hdu, hdb⟩ := findDiscovery_mem hfind
  intro p hp
  obtain ⟨d', hd'mem, hd'id, hd'u, hd'b⟩ := hrefs p hp
  rw [Bool.eq_iff_iff]
  simp only [Bool.and_eq_true, beq_iff_eq]
  constructor
  · rintro ⟨hdid, hpu⟩
    have hdd : d' = d := by
      refine mem_eq_of_pairwise_ne discRow_id_symm hid hd'mem hdmem ?_
      intro hne
      exact hne (by rw [hd'id, hdid])
    refine ⟨hpu, ?_⟩
    rw [← hd'b, hdd, hdb]
  · rintro ⟨hpu, hpb⟩
    have hdd : d' = d := by
      refine mem_eq_of_pairwise_ne discRow_pair_symm hpairU hd'mem hdmem ?_
      intro hne
      exact hne ⟨by rw [hd'u, hdu, hpu], by rw [hd'b, hdb, hpb]⟩
    exact ⟨by rw [← hd'id, hdd], hpu⟩

/-- When the discovery does not exist yet, no photo row references the
fresh discovery id and no photo row carries the (user, species) pair. -/
theorem photo_pred_new {st : Store} {u : Nat} {b : String}
    (hwf : st.WF) (hfind : findDiscovery st u b = none) :
    ∀ p ∈ st.photos,
      (p.discovery_id == st.nextDiscId && p.user_id == u) = false ∧
      (p.user_id == u && p.bird_number == b) = false := by
  obtain ⟨_, _, hlt, hrefs, _⟩ := hwf
  have hnone := findDiscovery_none hfind
  intro p hp
  obtain ⟨d', hd'mem, hd'id, hd'u, hd'b⟩ := hrefs p hp
  constructor
  · rw [Bool.eq_false_iff]
    intro hcontra
    simp only [Bool.and_eq_true, beq_iff_eq] at hcontra
    have : d'.id < st.nextDiscId := hlt d' hd'mem
    rw [hd'id, hcontra.1] at this
    exact Nat.lt_irrefl _ this
  · rw [Bool.eq_false_iff]
    intro hcontra
    simp only [Bool.and_eq_true, beq_iff_eq] at hcontra
    exact hnone d' hd'mem ⟨by rw [hd'u, hcontra.1], by rw [hd'b, hcontra.2]⟩

/-- The photos table after one species of the loop: the (user, species)
rows replaced by the freshly inserted ones, everything else kept in table
order. -/
theorem syncBirdPure_photos {J Img : Type} (pil : PilBackend Img) (dumps : J → String)
    (bleach : String → String) {u now : Nat} {st : Store} {b : String} (bd : BirdData J)
    (hwf : st.WF) :
    (syncBirdPure pil dumps bleach u now st b bd).photos =
      st.photos.filter (fun p => !(p.user_id == u && p.bird_number == b)) ++
        rowsFrom (didOf st u b) u b now st.nextPhotoId (newFieldsOf pil dumps bleach bd) := by
  cases hfind : findDiscovery st u b with
  | none =>
      rw [syncBirdPure_shape_new pil dumps bleach bd hfind]
      unfold didOf
      rw [hfind]
      have hpred := photo_pred_new hwf hfind
      have h1 : st.photos.filter (fun p => !(p.discovery_id == st.nextDiscId && p.user_id == u)) =
          st.photos := by
        rw [List.filter_eq_self]
        intro p hp
        rw [(hpred p hp).1]
        rfl
      have h2 : st.photos.filter (fun p => !(p.user_id == u && p.bird_number == b)) =
          st.photos := by
        rw [List.filter_eq_self]
        intro p hp
        rw [(hpred p hp).2]
        rfl
      rw [h1, h2]
  | some d =>
      rw [syncBirdPure_shape_found pil dumps bleach bd hfind]
      unfold didOf
      rw [hfind]
      have : st.photos.filter (fun p => !(p.discovery_id == d.id && p.user_id == u)) =
          st.photos.filter (fun p => !(p.user_id == u && p.bird_number == b)) := by
        apply List.filter_congr
        intro p hp
        rw [photo_pred_eq_found hwf hfind p hp]
      rw [this]

theorem photosUB_syncBirdPure {J Img : Type} (pil : PilBackend Img) (dumps : J → String)
    (bleach : String → String) {u now : Nat} {st : Store} {b : String} (bd : BirdData J)
    (hwf : st.WF) :
    photosUB (syncBirdPure pil dumps bleach u now st b bd) u b =
      rowsFrom (didOf st u b) u b now st.nextPhotoId (newFieldsOf pil dumps bleach bd) := by
  unfold photosUB
  rw [syncBirdPure_photos pil dumps bleach bd hwf, List.filter_append]
  have h1 : (st.photos.filter (fun p => !(p.user_id == u && p.bird_number == b))).filter
      (fun p => p.user_id == u && p.bird_number == b) = [] := by
    rw [List.filter_eq_nil_iff]
    intro p hp
    have := List.of_mem_filter hp
    simp only [Bool.not_eq_eq_eq_not, Bool.not_true] at this
    simp [this]
  have h2 : (rowsFrom (didOf st u b) u b now st.nextPhotoId
        (newFieldsOf pil dumps bleach bd)).filter
      (fun p => p.user_id == u && p.bird_number == b) =
      rowsFrom (didOf st u b) u b now st.nextPhotoId (newFieldsOf pil dumps bleach bd) := by
    rw [List.filter_eq_self]
    intro r hr
    have := rowsFrom_mem _ _ _ hr
    simp [this.2.1, this.2.2.1]
  rw [h1, h2, List.nil_append]

theorem photosUB_syncBirdPure_frame {J Img : Type} (pil : PilBackend Img)
    (dumps : J → String) (bleach : String → String) {u now : Nat} {st : Store} {b : String}
    (bd : BirdData J) (hwf : st.WF) (u' : Nat) (b' : String) (hne : ¬(u' = u ∧ b' = b)) :
    photosUB (syncBirdPure pil dumps bleach u now st b bd) u' b' = photosUB st u' b' := by
  unfold photosUB
  rw [syncBirdPure_photos pil dumps bleach bd hwf, List.filter_append]
  have h2 : (rowsFrom (didOf st u b) u b now st.nextPhotoId
        (newFieldsOf pil dumps bleach bd)).filter
      (fun p => p.user_id == u' && p.bird_number == b') = [] := by
    rw [List.filter_eq_nil_iff]
    intro r hr hcontra
    have hm := rowsFrom_mem _ _ _ hr
    simp only [Bool.and_eq_true, beq_iff_eq] at hcontra
    exact hne ⟨by rw [← hcontra.1, hm.2.1], by rw [← hcontra.2, hm.2.2.1]⟩
  have h1 : (st.photos.filter (fun p => !(p.user_id == u && p.bird_number == b))).filter
      (fun p => p.user_id == u' && p.bird_number == b') =
      st.photos.filter (fun p => p.user_id == u' && p.bird_number == b') := by
    rw [List.filter_filter]
    apply List.filter_congr
    intro p _
    by_cases hq : (p.user_id == u' && p.bird_number == b') = true
    · have hpf : (p.user_id == u && p.bird_number == b) = false := by
        rw [Bool.eq_false_iff]
        intro hc
        simp only [Bool.and_eq_true, beq_iff_eq] at hq hc
        exact hne ⟨by rw [← hq.1, hc.1], by rw [← hq.2, hc.2]⟩
      simp [hq, hpf]
    · have hq' : (p.user_id == u' && p.bird_number == b') = false :=
        Bool.eq_false_iff.mpr hq
      simp [hq']
  rw [h1, h2, List.append_nil]

theorem pairwise_discPred {l : List DiscRow} {u : Nat} {b : String}
    (hpairU : l.Pairwise (fun a c => ¬(a.user_id = c.user_id ∧ a.bird_number = c.bird_number))) :
    l.Pairwise (fun x y => ¬((x.user_id == u && x.bird_number == b) = true ∧
      (y.user_id == u && y.bird_number == b) = true)) := by
  refine hpairU.imp ?_
  intro a c hac hcontra
  simp only [Bool.and_eq_true, beq_iff_eq] at hcontra
  exact hac ⟨by rw [hcontra.1.1, hcontra.2.1], by rw [hcontra.1.2, hcontra.2.2]⟩

theorem discsUB_syncBirdPure_found {J Img : Type} (pil : PilBackend Img)
    (dumps : J → String) (bleach : String → String) {u now : Nat} {st : Store} {b : String}
    {d : DiscRow} (bd : BirdData J) (hwf : st.WF) (hfind : findDiscovery st u b = some d) :
    discsUB (syncBirdPure pil dumps bleach u now st b bd) u b =
      [{ d with updated_at := now }] := by
  obtain ⟨hidPW, hpairU, _, _, _⟩ := hwf
  obtain ⟨hdmem, hdu, hdb⟩ := findDiscovery_mem hfind
  rw [discsUB, syncBirdPure_shape_found pil dumps bleach bd hfind]
  show (st.discoveries.map _).filter _ = _
  rw [List.filter_map]
  have hcong : st.discoveries.filter
      ((fun x => x.user_id == u && x.bird_number == b) ∘
        (fun x => if x.id == d.id then { x with updated_at := now } else x)) =
      st.discoveries.filter (fun x => x.user_id == u && x.bird_number == b) := by
    apply List.filter_congr
    intro x _
    by_cases hx : x.id == d.id <;> simp [Function.comp, hx]
  rw [hcong, filter_eq_singleton_of_find? _ _ d hfind (pairwise_discPred hpairU)]
  simp

theorem discsUB_syncBirdPure_new {J Img : Type} (pil : PilBackend Img)
    (dumps : J → String) (bleach : String → String) {u now : Nat} {st : Store} {b : String}
    (bd : BirdData J) (hfind : findDiscovery st u b = none) :
    discsUB (syncBirdPure pil dumps bleach u now st b bd) u b =
      [⟨st.nextDiscId, u, b, now, now⟩] := by
  rw [discsUB, syncBirdPure_shape_new pil dumps bleach bd hfind]
  show (st.discoveries ++ _).filter _ = _
  rw [List.filter_append]
  have h1 : st.discoveries.filter (fun x => x.user_id == u && x.bird_number == b) = [] := by
    rw [List.filter_eq_nil_iff]
    intro x hx hcontra
    simp only [Bool.and_eq_true, beq_iff_eq] at hcontra
    exact findDiscovery_none hfind x hx hcontra
  rw [h1, List.nil_append]
  simp

theorem discsUB_syncBirdPure_frame {J Img : Type} (pil : PilBackend Img)
    (dumps : J → String) (bleach : String → String) {u now : Nat} {st : Store} {b : String}
    (bd : BirdData J) (hwf : st.WF) (u' : Nat) (b' : String) (hne : ¬(u' = u ∧ b' = b)) :
    discsUB (syncBirdPure pil dumps bleach u now st b bd) u' b' = discsUB st u' b' := by
  cases hfind : findDiscovery st u b with
  | some d =>
      obtain ⟨hidPW, hpairU, _, _, _⟩ := hwf
      obtain ⟨hdmem, hdu, hdb⟩ := findDiscovery_mem hfind
      rw [discsUB, discsUB, syncBirdPure_shape_found pil dumps bleach bd hfind]
      show (st.discoveries.map _).filter _ = _
      rw [List.filter_map]
      have hcong : st.discoveries.filter
          ((fun x => x.user_id == u' && x.bird_number == b') ∘
            (fun x => if x.id == d.id then { x with updated_at := now } else x)) =
          st.discoveries.filter (fun x => x.user_id == u' && x.bird_number == b') := by
        apply List.filter_congr
        intro x _
        by_cases hx : x.id == d.id <;> simp [Function.comp, hx]
      rw [hcong]
      apply List.map_congr_left ?_ |>.trans (List.map_id _)
      intro x hx
      have hxmem := List.mem_of_mem_filter hx
      have hxpair := List.of_mem_filter hx
      simp only [Bool.and_eq_true, beq_iff_eq] at hxpair
      have hxd : x.id ≠ d.id := by
        intro heq
        have : x = d := by
          refine mem_eq_of_pairwise_ne discRow_id_symm hidPW hxmem hdmem ?_
          intro hne2
          exact hne2 heq
        rw [this] at hxpair
        exact hne ⟨by rw [← hxpair.1, hdu], by rw [← hxpair.2, hdb]⟩
      simp [hxd]
  | none =>
      rw [discsUB, discsUB, syncBirdPure_shape_new pil dumps bleach bd hfind]
      show (st.discoveries ++ _).filter _ = _
      rw [List.filter_append]
      have h2 : List.filter (fun x => x.user_id == u' && x.bird_number == b')
          [(⟨st.nextDiscId, u, b, now, now⟩ : DiscRow)] = [] := by
        simp only [List.filter_eq_nil_iff, List.mem_singleton]
        rintro x rfl hcontra
        simp only [Bool.and_eq_true, beq_iff_eq] at hcontra
        exact hne ⟨hcontra.1.symm, hcontra.2.symm⟩
      rw [h2, List.append_nil]

/-- The write loop of save_discoveries preserves every store invariant. -/
theorem WF_syncBirdPure {J Img : Type} (pil : PilBackend Img) (dumps : J → String)
    (bleach : String → String) (u now : Nat) (st : Store) (b : String) (bd : BirdData J)
    (hwf : st.WF) : (syncBirdPure pil dumps bleach u now st b bd).WF := by
  obtain ⟨hidPW, hpairU, hlt, hrefs, hph⟩ := hwf
  cases hfind : findDiscovery st u b with
  | some d =>
      obtain ⟨hdmem, hdu, hdb⟩ := findDiscovery_mem hfind
      rw [syncBirdPure_shape_found pil dumps bleach bd hfind]
      have hidf : ∀ x : DiscRow,
          (if x.id == d.id then { x with updated_at := now } else x).id = x.id := by
        intro x
        split <;> rfl
      have huf : ∀ x : DiscRow,
          (if x.id == d.id then { x with updated_at := now } else x).user_id = x.user_id := by
        intro x
        split <;> rfl
      have hbf : ∀ x : DiscRow,
          (if x.id == d.id then { x with updated_at := now } else x).bird_number =
            x.bird_number := by
        intro x
        split <;> rfl
      refine ⟨?_, ?_, ?_, ?_, ?_⟩
      · rw [List.pairwise_map]
        refine hidPW.imp ?_
        intro a c h
        rw [hidf, hidf]
        exact h
      · rw [List.pairwise_map]
        refine hpairU.imp ?_
        intro a c h hcontra
        rw [huf, huf, hbf, hbf] at hcontra
        exact h hcontra
      · intro x hx
        rw [List.mem_map] at hx
        obtain ⟨a, ha, rfl⟩ := hx
        rw [hidf]
        exact hlt a ha
      · intro p hp
        rcases List.mem_append.mp hp with hp | hp
        · have hpm := List.mem_of_mem_filter hp
          obtain ⟨d', hd'mem, hd'id, hd'u, hd'b⟩ := hrefs p hpm
          refine ⟨if d'.id == d.id then { d' with updated_at := now } else d',
            List.mem_map_of_mem _ hd'mem, ?_, ?_, ?_⟩
          · rw [hidf]; exact hd'id
          · rw [huf]; exact hd'u
          · rw [hbf]; exact hd'b
        · have hm := rowsFrom_mem _ _ _ hp
          refine ⟨if d.id == d.id then { d with updated_at := now } else d,
            List.mem_map_of_mem _ hdmem, ?_, ?_, ?_⟩
          · rw [hidf, hm.1]
          · rw [huf, hm.2.1, hdu]
          · rw [hbf, hm.2.2.1, hdb]
      · exact Nat.le_trans hph (Nat.le_add_right _ _)
  | none =>
      rw [syncBirdPure_shape_new pil dumps bleach bd hfind]
      have hnone := findDiscovery_none hfind
      refine ⟨?_, ?_, ?_, ?_, ?_⟩
      · rw [List.pairwise_append]
        refine ⟨hidPW, List.pairwise_singleton _ _, ?_⟩
        intro a ha x hx
        rw [List.mem_singleton] at hx
        subst hx
        exact Nat.ne_of_lt (hlt a ha)
      · rw [List.pairwise_append]
        refine ⟨hpairU, List.pairwise_singleton _ _, ?_⟩
        intro a ha x hx
        rw [List.mem_singleton] at hx
        subst hx
        intro hcontra
        exact hnone a ha ⟨hcontra.1, hcontra.2⟩
      · intro x hx
        rcases List.mem_append.mp hx with hx | hx
        · exact Nat.lt_trans (hlt x hx) (Nat.lt_succ_self _)
        · rw [List.mem_singleton] at hx
          subst hx
          exact Nat.lt_succ_self _
      · intro p hp
        rcases List.mem_append.mp hp with hp | hp
        · have hpm := List.mem_of_mem_filter hp
          obtain ⟨d', hd'mem, hd'id, hd'u, hd'b⟩ := hrefs p hpm
          exact ⟨d', List.mem_append_left _ hd'mem, hd'id, hd'u, hd'b⟩
        · have hm := rowsFrom_mem _ _ _ hp
          refine ⟨⟨st.nextDiscId, u, b, now, now⟩,
            List.mem_append_right _ (List.mem_singleton_self _), ?_, ?_, ?_⟩
          · rw [hm.1]
          · rw [hm.2.1]
          · rw [hm.2.2.1]
      · exact Nat.le_trans hph (Nat.le_add_right _ _)

theorem runSyncPure_nil {J Img : Type} (pil : PilBackend Img) (dumps : J → String)
    (bleach : String → String) (u now : Nat) (st : Store) :
    runSyncPure pil dumps bleach u now st [] = st := rfl

theorem runSyncPure_cons {J Img : Type} (pil : PilBackend Img) (dumps : J → String)
    (bleach : String → String) (u now : Nat) (st : Store) (p : String × BirdData J)
    (data : List (String × BirdData J)) :
    runSyncPure pil dumps bleach u now st (p :: data) =
      runSyncPure pil dumps bleach u now (syncBirdPure pil dumps bleach u now st p.1 p.2)
        data := rfl

theorem runSyncPure_append {J Img : Type} (pil : PilBackend Img) (dumps : J → String)
    (bleach : String → String) (u now : Nat) (st : Store)
    (l m : List (String × BirdData J)) :
    runSyncPure pil dumps bleach u now st (l ++ m) =
      runSyncPure pil dumps bleach u now (runSyncPure pil dumps bleach u now st l) m := by
  unfold runSyncPure
  rw [List.foldl_append]

theorem WF_runSyncPure {J Img : Type} (pil : PilBackend Img) (dumps : J → String)
    (bleach : String → String) (u now : Nat) (data : List (String × BirdData J))
    (st : Store) (hwf : st.WF) : (runSyncPure pil dumps bleach u now st data).WF := by
  induction data generalizing st with
  | nil => exact hwf
  | cons p ps ih =>
      rw [runSyncPure_cons]
      exact ih _ (WF_syncBirdPure pil dumps bleach u now st p.1 p.2 hwf)

theorem photosUB_runSyncPure_frame {J Img : Type} (pil : PilBackend Img)
    (dumps : J → String) (bleach : String → String) (u now : Nat)
    (data : List (String × BirdData J)) (st : Store) (hwf : st.WF) (u' : Nat) (b' : String)
    (h : ∀ p ∈ data, ¬(u' = u ∧ b' = p.1)) :
    photosUB (runSyncPure pil dumps bleach u now st data) u' b' = photosUB st u' b' := by
  induction data generalizing st with
  | nil => rfl
  | cons p ps ih =>
      rw [runSyncPure_cons,
        ih _ (WF_syncBirdPure pil dumps bleach u now st p.1 p.2 hwf)
          (fun q hq => h q (List.mem_cons_of_mem p hq)),
        photosUB_syncBirdPure_frame pil dumps bleach p.2 hwf u' b'
          (h p (List.mem_cons_self p ps))]

theorem discsUB_runSyncPure_frame {J Img : Type} (pil : PilBackend Img)
    (dumps : J → String) (bleach : String → String) (u now : Nat)
    (data : List (String × BirdData J)) (st : Store) (hwf : st.WF) (u' : Nat) (b' : String)
    (h : ∀ p ∈ data, ¬(u' = u ∧ b' = p.1)) :
    discsUB (runSyncPure pil dumps bleach u now st data) u' b' = discsUB st u' b' := by
  induction data generalizing st with
  | nil => rfl
  | cons p ps ih =>
      rw [runSyncPure_cons,
        ih _ (WF_syncBirdPure pil dumps bleach u now st p.1 p.2 hwf)
          (fun q hq => h q (List.mem_cons_of_mem p hq)),
        discsUB_syncBirdPure_frame pil dumps bleach p.2 hwf u' b'
          (h p (List.mem_cons_self p ps))]

/-! ## The failure-free transaction runs the pure write path -/

theorem except_bind_ok {ε α β : Type} (a : α) (f : α → Except ε β) :
    (Except.ok a >>= f : Except ε β) = f a := rfl

theorem except_pure_eq {ε α : Type} (a : α) : (pure a : Except ε α) = Except.ok a := rfl

theorem chkDo_noFail (t : Tx) (f : Store → Store) :
    chkDo noFail t f = Except.ok ⟨f t.store, t.k + 1⟩ := rfl

theorem photoFoldM_noFail {J Img : Type} (pil : PilBackend Img) (dumps : J → String)
    (bleach : String → String) (did u : Nat) (b : String) (now : Nat)
    (entries : List (PhotoEntry J)) (t : Tx) :
    ∃ k', entries.foldlM
        (fun t e =>
          match processEntry pil dumps bleach e with
          | none => pure t
          | some f => chkDo noFail t (insertPhoto did u b now f)) t
      = Except.ok ⟨entries.foldl
          (fun s e =>
            match processEntry pil dumps bleach e with
            | none => s
            | some f => insertPhoto did u b now f s) t.store, k'⟩ := by
  induction entries generalizing t with
  | nil =>
      exact ⟨t.k, by rw [List.foldlM_nil, List.foldl_nil, except_pure_eq]⟩
  | cons e es ih =>
      rw [List.foldlM_cons, List.foldl_cons]
      cases hpe : processEntry pil dumps bleach e with
      | none =>
          simp only [hpe, except_pure_eq, except_bind_ok]
          exact ih t
      | some f =>
          simp only [hpe, chkDo_noFail, except_bind_ok]
          exact ih ⟨insertPhoto did u b now f t.store, t.k + 1⟩

theorem syncBird_noFail {J Img : Type} (pil : PilBackend Img) (dumps : J → String)
    (bleach : String → String) (u now : Nat) (t : Tx) (b : String) (bd : BirdData J) :
    ∃ k', syncBird pil dumps bleach noFail u now t b bd =
      Except.ok ⟨syncBirdPure pil dumps bleach u now t.store b bd, k'⟩ := by
  unfold syncBird syncBirdPure
  rw [chkDo_noFail, except_bind_ok]
  simp only [id_eq]
  cases hfind : findDiscovery t.store u b with
  | none =>
      simp only [chkDo_noFail, except_bind_ok, except_pure_eq]
      cases hbp : bd.photos with
      | none => exact ⟨_, rfl⟩
      | some entries => exact photoFoldM_noFail pil dumps bleach _ u b now entries _
  | some d =>
      simp only [chkDo_noFail, except_bind_ok, except_pure_eq]
      cases hbp : bd.photos with
      | none => exact ⟨_, rfl⟩
      | some entries => exact photoFoldM_noFail pil dumps bleach _ u b now entries _

theorem saveFoldM_noFail {J Img : Type} (pil : PilBackend Img) (dumps : J → String)
    (bleach : String → String) (u now : Nat) (data : List (String × BirdData J)) (t : Tx) :
    ∃ k', data.foldlM
        (fun t p => syncBird pil dumps bleach noFail u now t p.1 p.2) t
      = Except.ok ⟨runSyncPure pil dumps bleach u now t.store data, k'⟩ := by
  induction data generalizing t with
  | nil =>
      exact ⟨t.k, by rw [List.foldlM_nil, runSyncPure_nil, except_pure_eq]⟩
  | cons p ps ih =>
      rw [List.foldlM_cons, runSyncPure_cons]
      obtain ⟨k1, hk1⟩ := syncBird_noFail pil dumps bleach u now t p.1 p.2
      rw [hk1, except_bind_ok]
      exact ih _

/-- A save_discoveries request on which no SQL statement fails: it
answers success and the durable store becomes the pure write-path result,
with this owner's three cached views invalidated. -/
theorem save_discoveries_noFail {J Img : Type} (pil : PilBackend Img) (dumps : J → String)
    (bleach : String → String) (u now : Nat) (data : List (String × BirdData J))
    (st : Store) (ch : Caches J) (hne : data ≠ []) :
    save_discoveries pil dumps bleach noFail (some u) data now st ch =
      (SaveOutcome.success, runSyncPure pil dumps bleach u now st data,
        invalidateUser ch u) := by
  simp only [save_discoveries]
  rw [if_neg (by simpa using hne)]
  obtain ⟨k1, hk1⟩ := saveFoldM_noFail pil dumps bleach u now data ⟨st, 0⟩
  rw [hk1]
  rfl

/-! ## Characterizing the full-view projection -/

theorem lookup_map_keyUpdate_self {β : Type} (b : String) (g : β → β)
    (m : List (String × β)) :
    List.lookup b (m.map (fun kv => if kv.1 = b then (kv.1, g kv.2) else kv)) =
      (List.lookup b m).map g := by
  induction m with
  | nil => rfl
  | cons kv m ih =>
      obtain ⟨k, v⟩ := kv
      rw [List.map_cons]
      dsimp only
      by_cases h : k = b
      · subst h
        rw [if_pos rfl]
        simp [List.lookup, ih]
      · have hb : (b == k) = false := beq_eq_false_iff_ne.mpr (fun e => h e.symm)
        rw [if_neg h]
        simp [List.lookup, hb, ih]

theorem lookup_map_keyUpdate_ne {β : Type} (b c : String) (hne : c ≠ b) (g : β → β)
    (m : List (String × β)) :
    List.lookup b (m.map (fun kv => if kv.1 = c then (kv.1, g kv.2) else kv)) =
      List.lookup b m := by
  induction m with
  | nil => rfl
  | cons kv m ih =>
      obtain ⟨k, v⟩ := kv
      rw [List.map_cons]
      dsimp only
      by_cases h : k = c
      · rw [if_pos h]
        have hb : (b == k) = false :=
          beq_eq_false_iff_ne.mpr (fun e => hne (h ▸ e.symm))
        simp [List.lookup, hb, ih]
      · rw [if_neg h]
        by_cases hbk : b == k <;> simp [List.lookup, hbk, ih]

theorem lookup_addRowFull_ne {J : Type} (loads : String → Option J) (m : FullView J)
    (r : DiscRow × Option PhotoRow) (b : String) (hne : r.1.bird_number ≠ b) :
    List.lookup b (addRowFull loads m r) = List.lookup b m := by
  unfold addRowFull
  have hb : (b == r.1.bird_number) = false :=
    beq_eq_false_iff_ne.mpr (fun e => hne e.symm)
  have hens : List.lookup b
      (if (List.lookup r.1.bird_number m).isSome = true then m
       else m ++ [(r.1.bird_number, (⟨r.1.discovered_at, []⟩ : FullEntry J))]) =
      List.lookup b m := by
    split
    · rfl
    · rw [lookup_append_str]
      cases hm : List.lookup b m <;> simp [List.lookup, hb]
  cases hproj : projPhotoRow loads r with
  | none =>
      dsimp only
      exact hens
  | some ph =>
      dsimp only
      rw [lookup_map_keyUpdate_ne b r.1.bird_number hne
        (fun v : FullEntry J => ⟨v.discovered_at, v.photos ++ [ph]⟩)]
      exact hens

theorem lookup_addRowFull_some {J : Type} (loads : String → Option J) (m : FullView J)
    (r : DiscRow × Option PhotoRow) (e : FullEntry J)
    (hl : List.lookup r.1.bird_number m = some e) :
    List.lookup r.1.bird_number (addRowFull loads m r) =
      some ⟨e.discovered_at, e.photos ++ (projPhotoRow loads r).toList⟩ := by
  unfold addRowFull
  cases hproj : projPhotoRow loads r with
  | none =>
      dsimp only
      rw [hl, if_pos (show (some e).isSome = true from rfl), hl]
      simp
  | some ph =>
      dsimp only
      rw [hl, if_pos (show (some e).isSome = true from rfl)]
      rw [lookup_map_keyUpdate_self r.1.bird_number
        (fun v : FullEntry J => ⟨v.discovered_at, v.photos ++ [ph]⟩) m, hl]
      simp

theorem lookup_addRowFull_none {J : Type} (loads : String → Option J) (m : FullView J)
    (r : DiscRow × Option PhotoRow) (hl : List.lookup r.1.bird_number m = none) :
    List.lookup r.1.bird_number (addRowFull loads m r) =
      some ⟨r.1.discovered_at, (projPhotoRow loads r).toList⟩ := by
  unfold addRowFull
  have happ : List.lookup r.1.bird_number
      (m ++ [(r.1.bird_number, (⟨r.1.discovered_at, []⟩ : FullEntry J))]) =
      some ⟨r.1.discovered_at, []⟩ := by
    rw [lookup_append_str, hl]
    simp [List.lookup]
  cases hproj : projPhotoRow loads r with
  | none =>
      dsimp only
      rw [hl, if_neg (by simp)]
      exact happ
  | some ph =>
      dsimp only
      rw [hl, if_neg (by simp)]
      rw [lookup_map_keyUpdate_self r.1.bird_number
        (fun v : FullEntry J => ⟨v.discovered_at, v.photos ++ [ph]⟩), happ]
      simp

theorem lookup_foldl_addRowFull {J : Type} (loads : String → Option J) (b : String)
    (rows : List (DiscRow × Option PhotoRow)) : ∀ m : FullView J,
    List.lookup b (rows.foldl (addRowFull loads) m) =
      match List.lookup b m with
      | some e => some ⟨e.discovered_at, e.photos ++
          (rows.filter (fun r => r.1.bird_number == b)).filterMap (projPhotoRow loads)⟩
      | none =>
        match rows.filter (fun r => r.1.bird_number == b) with
        | [] => none
        | r :: rs => some ⟨r.1.discovered_at, (r :: rs).filterMap (projPhotoRow loads)⟩ := by
  induction rows with
  | nil =>
      intro m
      rw [List.foldl_nil]
      cases hm : List.lookup b m with
      | none => rfl
      | some e => simp
  | cons r rs ih =>
      intro m
      rw [List.foldl_cons]
      by_cases hb : r.1.bird_number = b
      · subst hb
        rw [List.filter_cons_of_pos (by simp)]
        cases hm : List.lookup r.1.bird_number m with
        | some e =>
            rw [ih, lookup_addRowFull_some loads m r e hm]
            cases hproj : projPhotoRow loads r <;>
              simp [List.filterMap_cons, hproj, List.append_assoc]
        | none =>
            rw [ih, lookup_addRowFull_none loads m r hm]
            cases hproj : projPhotoRow loads r <;>
              simp [List.filterMap_cons, hproj]
      · rw [List.filter_cons_of_neg (by simp [hb]), ih,
          lookup_addRowFull_ne loads m r b hb]

theorem lookup_buildFull {J : Type} (loads : String → Option J) (b : String)
    (rows : List (DiscRow × Option PhotoRow)) :
    List.lookup b (buildFull loads rows) =
      match rows.filter (fun r => r.1.bird_number == b) with
      | [] => none
      | r :: rs => some ⟨r.1.discovered_at, (r :: rs).filterMap (projPhotoRow loads)⟩ := by
  unfold buildFull
  rw [lookup_foldl_addRowFull]
  rfl

/-! ## Locating one species inside the join -/

theorem flatMap_congr_fn {α β : Type} (l : List α) (f g : α → List β)
    (h : ∀ a ∈ l, f a = g a) : l.flatMap f = l.flatMap g := by
  induction l with
  | nil => rfl
  | cons x xs ih =>
      rw [List.flatMap_cons, List.flatMap_cons, h x (List.mem_cons_self x xs),
        ih (fun a ha => h a (List.mem_cons_of_mem x ha))]

/-- A block of join rows generated for one discovery row passes the
bird-number filter as a whole or not at all. -/
theorem filter_block (b : String) (d : DiscRow) (ps : List PhotoRow) :
    (match ps with
      | [] => [(d, (none : Option PhotoRow))]
      | ps => ps.map (fun p => (d, some p))).filter (fun r => r.1.bird_number == b) =
      if d.bird_number == b then
        (match ps with
          | [] => [(d, (none : Option PhotoRow))]
          | ps => ps.map (fun p => (d, some p)))
      else [] := by
  cases ps with
  | nil =>
      by_cases hd : d.bird_number == b <;> simp [List.filter, hd]
  | cons p ps =>
      by_cases hd : d.bird_number == b
      · rw [if_pos hd, List.filter_eq_self]
        intro r hr
        rw [List.mem_map] at hr
        obtain ⟨q, _, rfl⟩ := hr
        exact hd
      · rw [if_neg hd, List.filter_eq_nil_iff]
        intro r hr
        rw [List.mem_map] at hr
        obtain ⟨q, _, rfl⟩ := hr
        simp only [Bool.not_eq_true]
        exact Bool.eq_false_iff.mpr hd

theorem filter_joinedRows (st : Store) (u : Nat) (b : String) :
    (joinedRows st u).filter (fun r => r.1.bird_number == b) =
      ((discsSorted st u).filter (fun d => d.bird_number == b)).flatMap
        (fun d =>
          match photosSorted st d.id with
          | [] => [(d, none)]
          | ps => ps.map (fun p => (d, some p))) := by
  unfold joinedRows
  rw [filter_flatMap, ← flatMap_ite_filter]
  apply flatMap_congr_fn
  intro d _
  exact filter_block b d (photosSorted st d.id)

theorem filter_discsSorted_perm (st : Store) (u : Nat) (b : String) :
    List.Perm ((discsSorted st u).filter (fun d => d.bird_number == b)) (discsUB st u b) := by
  have h1 : List.Perm (discsSorted st u) (discsOfUser st u) := List.perm_insertionSort _ _
  refine (h1.filter _).trans ?_
  unfold discsOfUser discsUB
  rw [List.filter_filter]
  apply List.Perm.of_eq
  apply List.filter_congr
  intro d _
  rw [Bool.and_comm]

theorem filter_discsSorted_eq_single {st : Store} {u : Nat} {b : String} {d : DiscRow}
    (h : discsUB st u b = [d]) :
    (discsSorted st u).filter (fun x => x.bird_number == b) = [d] := by
  have := filter_discsSorted_perm st u b
  rw [h] at this
  exact List.perm_singleton.mp this

theorem sorted_const_photoOrder (c : Nat) (l : List PhotoRow)
    (h : ∀ p ∈ l, p.created_at = c) : List.Sorted photoOrder l := by
  induction l with
  | nil => exact List.sorted_nil
  | cons x xs ih =>
      rw [List.sorted_cons]
      refine ⟨?_, ih (fun p hp => h p (List.mem_cons_of_mem x hp))⟩
      intro y hy
      unfold photoOrder
      rw [h x (List.mem_cons_self x xs), h y (List.mem_cons_of_mem x hy)]

theorem photosSorted_of_const {st : Store} {did c : Nat}
    (h : ∀ p ∈ photosOfDisc st did, p.created_at = c) :
    photosSorted st did = photosOfDisc st did :=
  List.Sorted.insertionSort_eq (sorted_const_photoOrder c _ h)

/-- Under referential integrity and uniqueness, filtering photos by the
discovery id of the (user, species) row is filtering by (user,
species). -/
theorem photosOfDisc_eq_photosUB {st : Store} {u : Nat} {b : String} {d : DiscRow}
    (hwf : st.WF) (hfind : findDiscovery st u b = some d) :
    photosOfDisc st d.id = photosUB st u b := by
  obtain ⟨hidPW, hpairU, _, hrefs, _⟩ := hwf
  obtain ⟨hdmem, hdu, hdb⟩ := findDiscovery_mem hfind
  unfold photosOfDisc photosUB
  apply List.filter_congr
  intro p hp
  obtain ⟨d', hd'mem, hd'id, hd'u, hd'b⟩ := hrefs p hp
  rw [Bool.eq_iff_iff]
  simp only [Bool.and_eq_true, beq_iff_eq]
  constructor
  · intro hdid
    have hdd : d' = d := by
      refine mem_eq_of_pairwise_ne discRow_id_symm hidPW hd'mem hdmem ?_
      intro hne
      exact hne (by rw [hd'id, hdid])
    constructor
    · rw [← hd'u, hdd, hdu]
    · rw [← hd'b, hdd, hdb]
  · rintro ⟨hpu, hpb⟩
    have hdd : d' = d := by
      refine mem_eq_of_pairwise_ne discRow_pair_symm hpairU hd'mem hdmem ?_
      intro hne
      exact hne ⟨by rw [hd'u, hdu, hpu], by rw [hd'b, hdb, hpb]⟩
    rw [← hd'id, hdd]

theorem cacheGet_cacheDel {A : Type} (m : List (Nat × A)) (u : Nat) :
    cacheGet (cacheDel m u) u = none := by
  unfold cacheGet cacheDel
  have : (m.filter (fun p => p.1 != u)).find? (fun p => p.1 == u) = none := by
    rw [List.find?_eq_none]
    intro x hx
    have := List.of_mem_filter hx
    simp only [bne_iff_ne, ne_eq] at this
    simp [this]
  rw [this]
  rfl

/-! ## Read-back after a successful synchronization -/

theorem nodup_split_mem {J : Type} {data pre post : List (String × BirdData J)}
    {b : String} {bd : BirdData J} (hdata : data = pre ++ (b, bd) :: post)
    (hnd : (data.map Prod.fst).Nodup) :
    b ∉ pre.map Prod.fst ∧ b ∉ post.map Prod.fst := by
  subst hdata
  rw [List.map_append, List.map_cons, List.nodup_append] at hnd
  obtain ⟨_, hnd2, hdisj⟩ := hnd
  rw [List.nodup_cons] at hnd2
  exact ⟨fun hb => hdisj hb (List.mem_cons_self _ _), hnd2.1⟩

/-- After a successful synchronization containing species b, the final
store holds exactly one discovery row for (u, b), whose photo rows are
the processed kept entries of b in submission order. -/
theorem store_after_sync {J Img : Type} (pil : PilBackend Img) (dumps : J → String)
    (bleach : String → String) (u now : Nat) (st : Store)
    (data : List (String × BirdData J)) (hwf : st.WF)
    (hnd : (data.map Prod.fst).Nodup) {b : String} {bd : BirdData J}
    (hmem : (b, bd) ∈ data) :
    ∃ d : DiscRow, ∃ startId : Nat,
      findDiscovery (runSyncPure pil dumps bleach u now st data) u b = some d ∧
      d.user_id = u ∧ d.bird_number = b ∧ 1 ≤ startId ∧
      (∀ d0 : DiscRow, findDiscovery st u b = some d0 → d = { d0 with updated_at := now }) ∧
      discsUB (runSyncPure pil dumps bleach u now st data) u b = [d] ∧
      photosUB (runSyncPure pil dumps bleach u now st data) u b =
        rowsFrom d.id u b now startId (newFieldsOf pil dumps bleach bd) := by
  obtain ⟨pre, post, hdata⟩ := List.append_of_mem hmem
  obtain ⟨hbpre, hbpost⟩ := nodup_split_mem hdata hnd
  have hwf1 : (runSyncPure pil dumps bleach u now st pre).WF :=
    WF_runSyncPure pil dumps bleach u now pre st hwf
  set st1 := runSyncPure pil dumps bleach u now st pre with hst1
  have hdiPre : discsUB st1 u b = discsUB st u b := by
    rw [hst1]
    exact discsUB_runSyncPure_frame pil dumps bleach u now pre st hwf u b
      (fun q hq hc => hbpre (hc.2 ▸ List.mem_map_of_mem Prod.fst hq))
  have hwf2 : (syncBirdPure pil dumps bleach u now st1 b bd).WF :=
    WF_syncBirdPure pil dumps bleach u now st1 b bd hwf1
  set st2 := syncBirdPure pil dumps bleach u now st1 b bd with hst2
  have hrun : runSyncPure pil dumps bleach u now st data =
      runSyncPure pil dumps bleach u now st2 post := by
    rw [hdata, runSyncPure_append, runSyncPure_cons, ← hst1]
  have hpostne : ∀ q ∈ post, ¬(u = u ∧ b = q.1) := by
    intro q hq hcontra
    exact hbpost (hcontra.2 ▸ List.mem_map_of_mem Prod.fst hq)
  have hphF : photosUB (runSyncPure pil dumps bleach u now st2 post) u b =
      photosUB st2 u b :=
    photosUB_runSyncPure_frame pil dumps bleach u now post st2 hwf2 u b hpostne
  have hdiF : discsUB (runSyncPure pil dumps bleach u now st2 post) u b =
      discsUB st2 u b :=
    discsUB_runSyncPure_frame pil dumps bleach u now post st2 hwf2 u b hpostne
  have hph2 : photosUB st2 u b =
      rowsFrom (didOf st1 u b) u b now st1.nextPhotoId (newFieldsOf pil dumps bleach bd) :=
    photosUB_syncBirdPure pil dumps bleach bd hwf1
  have hstart : 1 ≤ st1.nextPhotoId := hwf1.2.2.2.2
  cases hfind1 : findDiscovery st1 u b with
  | some d0 =>
      obtain ⟨hd0mem, hd0u, hd0b⟩ := findDiscovery_mem hfind1
      have hdi2 : discsUB st2 u b = [{ d0 with updated_at := now }] :=
        discsUB_syncBirdPure_found pil dumps bleach bd hwf1 hfind1
      refine ⟨{ d0 with updated_at := now }, st1.nextPhotoId, ?_, hd0u, hd0b, hstart,
        ?_, ?_, ?_⟩
      · rw [hrun]
        exact find?_of_filter_singleton _ _ _ (by rw [← discsUB, hdiF, hdi2])
      · intro d0' hfind0
        have h1 : discsUB st u b = [d0'] :=
          filter_eq_singleton_of_find? _ _ _ hfind0 (pairwise_discPred hwf.2.1)
        have h2 : discsUB st1 u b = [d0] :=
          filter_eq_singleton_of_find? _ _ _ hfind1 (pairwise_discPred hwf1.2.1)
        have hdd : d0 = d0' := by
          have h3 := h2.symm.trans (hdiPre.trans h1)
          simpa using h3
        rw [hdd]
      · rw [hrun, hdiF, hdi2]
      · rw [hrun, hphF, hph2]
        have : didOf st1 u b = d0.id := by
          unfold didOf
          rw [hfind1]
        rw [this]
  | none =>
      have hdi2 : discsUB st2 u b = [⟨st1.nextDiscId, u, b, now, now⟩] :=
        discsUB_syncBirdPure_new pil dumps bleach bd hfind1
      refine ⟨⟨st1.nextDiscId, u, b, now, now⟩, st1.nextPhotoId, ?_, rfl, rfl, hstart,
        ?_, ?_, ?_⟩
      · rw [hrun]
        exact find?_of_filter_singleton _ _ _ (by rw [← discsUB, hdiF, hdi2])
      · intro d0' hfind0
        exfalso
        have h1 : discsUB st u b = [d0'] :=
          filter_eq_singleton_of_find? _ _ _ hfind0 (pairwise_discPred hwf.2.1)
        have h2 : discsUB st1 u b = [] := by
          rw [discsUB, List.filter_eq_nil_iff]
          intro x hx hc
          simp only [Bool.and_eq_true, beq_iff_eq] at hc
          exact findDiscovery_none hfind1 x hx hc
        rw [hdiPre, h1] at h2
        exact List.cons_ne_nil _ _ h2
      · rw [hrun, hdiF, hdi2]
      · rw [hrun, hphF, hph2]
        have : didOf st1 u b = st1.nextDiscId := by
          unfold didOf
          rw [hfind1]
        rw [this]

/-- Reading the full view back from a store in the state
store_after_sync describes: the species' entry lists exactly the
processed kept photos, in insertion order. -/
theorem lookup_buildFull_after_sync {J Img : Type} (pil : PilBackend Img)
    (dumps : J → String) (bleach : String → String) (loads : String → Option J)
    {stF : Store} {u now : Nat} {b : String} {bd : BirdData J} {d : DiscRow}
    {startId : Nat} (hwfF : stF.WF)
    (hfindF : findDiscovery stF u b = some d)
    (hdi : discsUB stF u b = [d])
    (hph : photosUB stF u b = rowsFrom d.id u b now startId (newFieldsOf pil dumps bleach bd))
    (hstart : 1 ≤ startId) :
    ∃ entry : FullEntry J,
      List.lookup b (buildFull loads (joinedRows stF u)) = some entry ∧
      entry.discovered_at = d.discovered_at ∧
      entry.photos.map PhotoProj.content =
        (newFieldsOf pil dumps bleach bd).map (fieldsProj loads) := by
  have hpod : photosOfDisc stF d.id = rowsFrom d.id u b now startId
      (newFieldsOf pil dumps bleach bd) := by
    rw [photosOfDisc_eq_photosUB hwfF hfindF, hph]
  have hsorted : photosSorted stF d.id = photosOfDisc stF d.id := by
    refine photosSorted_of_const (c := now) ?_
    intro p hp
    rw [hpod] at hp
    exact (rowsFrom_mem _ _ _ hp).2.2.2.1
  have hfilter : (joinedRows stF u).filter (fun r => r.1.bird_number == b) =
      match photosSorted stF d.id with
      | [] => [(d, none)]
      | ps => ps.map (fun p => (d, some p)) := by
    rw [filter_joinedRows, filter_discsSorted_eq_single hdi, List.flatMap_cons,
      List.flatMap_nil, List.append_nil]
  rw [hsorted, hpod] at hfilter
  cases hnf : newFieldsOf pil dumps bleach bd with
  | nil =>
      rw [hnf] at hfilter
      refine ⟨⟨d.discovered_at, []⟩, ?_, rfl, by simp [hnf]⟩
      rw [lookup_buildFull, hfilter]
      rfl
  | cons f fs =>
      rw [hnf] at hfilter
      set ps := rowsFrom d.id u b now startId (f :: fs) with hps
      have hproj : ∀ p ∈ ps, projPhotoRow loads (d, some p) =
          some ⟨p.id, fieldsProj loads p.fields⟩ := by
        intro p hp
        have hi := (rowsFrom_mem _ _ _ hp).2.2.2.2
        have hpz : ¬p.id = 0 := by
          intro h0
          rw [h0] at hi
          exact Nat.not_succ_le_zero 0 (Nat.le_trans hstart hi)
        unfold projPhotoRow
        dsimp only
        rw [if_neg hpz]
      have hmap : (ps.map (fun p => (d, some p))).filterMap (projPhotoRow loads) =
          ps.map (fun p => (⟨p.id, fieldsProj loads p.fields⟩ : PhotoProj J)) := by
        rw [List.filterMap_map]
        exact filterMap_all_some _ _ ps hproj
      refine ⟨⟨d.discovered_at, ps.map (fun p => ⟨p.id, fieldsProj loads p.fields⟩)⟩,
        ?_, rfl, ?_⟩
      · have hlook : List.lookup b (buildFull loads (joinedRows stF u)) =
            some ⟨d.discovered_at,
              (ps.map (fun p => (d, some p))).filterMap (projPhotoRow loads)⟩ := by
          rw [lookup_buildFull, hfilter]
          rfl
        rw [hlook, hmap]
      · show (ps.map (fun p => (⟨p.id, fieldsProj loads p.fields⟩ : PhotoProj J))).map
            PhotoProj.content = _
        rw [List.map_map]
        have hcomp : PhotoProj.content ∘ (fun p : PhotoRow =>
            (⟨p.id, fieldsProj loads p.fields⟩ : PhotoProj J)) =
            (fun p : PhotoRow => fieldsProj loads p.fields) := rfl
        rw [hcomp]
        have hfields : ps.map (fun p => fieldsProj loads p.fields) =
            (ps.map (fun r => r.fields)).map (fieldsProj loads) := by
          rw [List.map_map]
          rfl
        rw [hfields, hps, rowsFrom_map_fields]

/-! ## Endpoint-level helper lemmas -/

theorem processEntry_none_iff {J Img : Type} (pil : PilBackend Img) (dumps : J → String)
    (bleach : String → String) (e : PhotoEntry J) :
    processEntry pil dumps bleach e = none ↔ hasPayload e = false := by
  unfold processEntry hasPayload
  cases e.photo with
  | none => simp
  | some s => by_cases hs : s = "" <;> simp [hs]

theorem filter_length_le_one_of_pairwise {α : Type} (p : α → Bool) (l : List α)
    (hpw : l.Pairwise (fun x y => ¬(p x = true ∧ p y = true))) :
    (l.filter p).length ≤ 1 := by
  induction l with
  | nil => exact Nat.zero_le 1
  | cons x xs ih =>
      rcases List.pairwise_cons.mp hpw with ⟨hx, hxs⟩
      by_cases h : p x
      · rw [List.filter_cons_of_pos h]
        have : xs.filter p = [] := by
          rw [List.filter_eq_nil_iff]
          intro y hy hpy
          exact hx y hy ⟨h, hpy⟩
        rw [this]
        exact Nat.le_refl 1
      · rw [List.filter_cons_of_neg h]
        exact ih hxs

theorem cacheGet_nil {A : Type} (u : Nat) : cacheGet ([] : List (Nat × A)) u = none := rfl

theorem get_discoveries_fresh {J : Type} (loads : String → Option J) (u : Nat)
    (st : Store) (ch : Caches J) (hc : cacheGet ch.v2 u = none) :
    get_discoveries loads (some u) st ch =
      (Except.ok (buildFull loads (joinedRows st u)),
       { ch with v2 := cacheSet ch.v2 u (buildFull loads (joinedRows st u)) }) := by
  simp only [get_discoveries, hc]

theorem get_discoveries_light_fresh {J : Type} (loads : String → Option J) (u : Nat)
    (st : Store) (ch : Caches J) (hc : cacheGet ch.light u = none) :
    get_discoveries_light loads (some u) st ch =
      (Except.ok (buildLight loads (joinedRows st u)),
       { ch with light := cacheSet ch.light u (buildLight loads (joinedRows st u)) }) := by
  simp only [get_discoveries_light, hc]

theorem discoveries_metadata_fresh {J : Type} (u : Nat) (st : Store) (ch : Caches J)
    (hc : cacheGet ch.meta u = none) :
    discoveries_metadata (some u) st ch =
      (Except.ok (computeMetadata st u),
       { ch with meta := cacheSet ch.meta u (computeMetadata st u) }) := by
  simp only [discoveries_metadata, hc]

/-! ## Concrete fixtures used by the witnesses -/

/-- A trivial codec backend on which every library call succeeds. -/
def pil0 : PilBackend Unit :=
  { b64decode := fun _ => some [1]
    b64encode := fun _ => "ENC"
    openImage := fun _ => some ()
    toRgb := fun i => i
    thumbnailFit := fun i _ => i
    saveJpeg := fun _ _ => some [7, 8] }

/-- A codec backend whose base64 decoding always fails. -/
def pilNoDecode : PilBackend Unit :=
  { b64decode := fun _ => none
    b64encode := fun _ => ""
    openImage := fun _ => none
    toRgb := fun i => i
    thumbnailFit := fun i _ => i
    saveJpeg := fun _ _ => none }

/-- A two-value structured-coordinate codec standing in for json. -/
def dumps0 : Bool → String := fun j => if j then "T" else "F"

def loads0 : String → Option Bool := fun s =>
  if s = "T" then some true else if s = "F" then some false else none

def bleach0 : String → String := fun s => s

def entryFresh : PhotoEntry Bool :=
  { photo := some "PIC", id := none, thumbnail := none, location := "Parc"
    city := "", region := "", country := "", coordinates := CoordVal.obj true
    date := "2024-05-01", sex := "m", note := "" }

def entryPre : PhotoEntry Bool :=
  { photo := some "OLD", id := some 3, thumbnail := some "TH", location := "loc2"
    city := "", region := "", country := "", coordinates := CoordVal.str ""
    date := "d2", sex := "", note := "" }

def entrySkip : PhotoEntry Bool :=
  { photo := none, id := none, thumbnail := none, location := ""
    city := "", region := "", country := "", coordinates := CoordVal.str ""
    date := "", sex := "", note := "" }

def bd1 : BirdData Bool := ⟨some [entryFresh, entryPre, entrySkip]⟩

def data1 : List (String × BirdData Bool) := [("0001", bd1), ("0002", ⟨none⟩)]

def st0 : Store := ⟨[], [], 1, 1⟩

def chB0 : Caches Bool := emptyCaches Bool

/-! ## Claims -/

/-- C3, counterexample: on an input that carried the header
data:image/png;base64, and whose base64 decoding fails, the degraded
result's full field is NOT the original input verbatim — the original
header has been stripped and replaced with the default JPEG header. -/
theorem C3_degraded_not_verbatim_cex :
    compressTry pilNoDecode (800, 800) 85 "data:image/png;base64,AAAA" =
      Except.error CodecError.invalidBase64 ∧
    compress_image pilNoDecode (800, 800) 85 "data:image/png;base64,AAAA" =
      { full := "data:image/jpeg;base64,AAAA", thumbnail := none, size := 0 } ∧
    (compress_image pilNoDecode (800, 800) 85 "data:image/png;base64,AAAA").full ≠
      "data:image/png;base64,AAAA" := by
  refine ⟨rfl, rfl, ?_⟩
  decide

theorem splitFirstComma_append {h : List Char} (hh : ∀ c ∈ h, c ≠ ',') (p : List Char) :
    splitFirstComma (h ++ ',' :: p) = some (h, p) := by
  induction h with
  | nil => simp [splitFirstComma]
  | cons c cs ih =>
      rw [List.cons_append, splitFirstComma,
        if_neg (hh c (List.mem_cons_self c cs)),
        ih (fun x hx => hh x (List.mem_cons_of_mem c hx))]
      rfl

theorem string_toList_append3 (h p : String) :
    (h ++ "," ++ p).toList = h.toList ++ ',' :: p.toList := by
  show (h ++ "," ++ p).data = h.data ++ ',' :: p.data
  rw [String.data_append, String.data_append]
  simp

theorem stripHeader_append {h : String} (hh : ∀ c ∈ h.toList, c ≠ ',') (p : String) :
    stripHeader (h ++ "," ++ p) = (h ++ ",", p) := by
  unfold stripHeader
  rw [string_toList_append3, splitFirstComma_append hh]
  show (String.mk h.data ++ ",", String.mk p.data) = (h ++ ",", p)
  rfl

/-- C3, amended: when the codec's internal processing fails on a
header-prefixed input, the degraded result's full field is the
post-comma payload re-prefixed with the DEFAULT JPEG header (the
original header is discarded); the thumbnail is absent and the size is
zero. -/
theorem C3_degraded_header_replaced {Img : Type} (pil : PilBackend Img)
    (ms : Nat × Nat) (q : Nat) (h p : String) (hh : ∀ c ∈ h.toList, c ≠ ',')
    (hp : p.toList.contains ',' = false) (e : CodecError)
    (herr : compressTry pil ms q (h ++ "," ++ p) = Except.error e) :
    compress_image pil ms q (h ++ "," ++ p) =
      { full := defaultHeader ++ p, thumbnail := none, size := 0 } := by
  have hne : h ++ "," ++ p ≠ "" := by
    intro h0
    have := congrArg String.toList h0
    rw [string_toList_append3] at this
    simp at this
  unfold compress_image
  rw [herr, if_neg hne, stripHeader_append hh]
  unfold degradedResult containsComma
  rw [hp]
  rfl

/-- C3, amended, witness at a concrete failing input. -/
theorem C3_degraded_header_replaced_witness :
    (∀ c ∈ ("data:image/png;base64" : String).toList, c ≠ ',') ∧
    (("AAAA" : String).toList.contains ',' = false) ∧
    compressTry pilNoDecode (800, 800) 85 ("data:image/png;base64" ++ "," ++ "AAAA") =
      Except.error CodecError.invalidBase64 ∧
    compress_image pilNoDecode (800, 800) 85 ("data:image/png;base64" ++ "," ++ "AAAA") =
      { full := defaultHeader ++ "AAAA", thumbnail := none, size := 0 } :=
  ⟨by decide, by decide, rfl,
    C3_degraded_header_replaced pilNoDecode (800, 800) 85 "data:image/png;base64" "AAAA"
      (by decide) (by decide) CodecError.invalidBase64 rfl⟩

/-- C8, counterexample: an empty payload raises the invalid-input error
inside the try-block, but compress_image does NOT signal any error to
its caller — the caller receives the degraded record. -/
theorem C8_no_error_to_caller_cex :
    compressTry pilNoDecode (800, 800) 85 "" = Except.error CodecError.invalidInput ∧
    compress_image pilNoDecode (800, 800) 85 "" =
      { full := "data:image/jpeg;base64,", thumbnail := none, size := 0 } :=
  ⟨rfl, rfl⟩

/-- C8, amended: for an empty payload, or one whose encoded-text
decoding fails, compress_image raises InvalidInput (respectively the
base64 decode error) internally, and the top-level handler converts it
into the degraded result; the caller never sees the error. -/
theorem C8_invalid_input_degraded {Img : Type} (pil : PilBackend Img) (ms : Nat × Nat)
    (q : Nat) (d : String) (h : d = "" ∨ pil.b64decode (stripHeader d).2 = none) :
    compressTry pil ms q d =
      Except.error
        (if d = "" then CodecError.invalidInput else CodecError.invalidBase64) ∧
    compress_image pil ms q d =
      degradedResult (if d = "" then d else (stripHeader d).2) := by
  by_cases hd : d = ""
  · subst hd
    exact ⟨rfl, rfl⟩
  · have hb : pil.b64decode (stripHeader d).2 = none := h.resolve_left hd
    have htry : compressTry pil ms q d = Except.error CodecError.invalidBase64 := by
      unfold compressTry
      rw [if_neg hd]
      dsimp only
      rw [hb]
    rw [if_neg hd, if_neg hd]
    refine ⟨htry, ?_⟩
    unfold compress_image
    rw [htry]
    dsimp only
    rw [if_neg hd]

/-- C8, amended, witness at a concrete undecodable input. -/
theorem C8_invalid_input_degraded_witness :
    (("x" : String) = "" ∨ pilNoDecode.b64decode (stripHeader "x").2 = none) ∧
    (compressTry pilNoDecode (800, 800) 85 "x" =
        Except.error
          (if ("x" : String) = "" then CodecError.invalidInput
           else CodecError.invalidBase64) ∧
      compress_image pilNoDecode (800, 800) 85 "x" =
        degradedResult (if ("x" : String) = "" then "x" else (stripHeader "x").2)) :=
  ⟨Or.inr rfl, C8_invalid_input_degraded pilNoDecode (800, 800) 85 "x" (Or.inr rfl)⟩

/-- C10: compress_image is total — for every input it either returns the
try-block's successful record or the degraded record built by the
catch-all handler (full, absent thumbnail, size zero); no exception
reaches the caller and the handler itself always produces a value. -/
theorem C10_compress_total {Img : Type} (pil : PilBackend Img) (ms : Nat × Nat)
    (q : Nat) (d : String) :
    (∃ r, compressTry pil ms q d = Except.ok r ∧ compress_image pil ms q d = r) ∨
    (∃ e, compressTry pil ms q d = Except.error e ∧
      compress_image pil ms q d =
        degradedResult (if d = "" then d else (stripHeader d).2)) := by
  unfold compress_image
  cases htry : compressTry pil ms q d with
  | ok r => exact Or.inl ⟨r, rfl, rfl⟩
  | error e => exact Or.inr ⟨e, rfl, rfl⟩

/-- C7: a photo entry that carries an identifier is stored with its
payload and supplied thumbnail unmodified and with size zero; the Image
Codec is not invoked on it — the stored row is independent of the codec
backend. -/
theorem C7_precompressed_kept {J Img1 Img2 : Type} (pil1 : PilBackend Img1)
    (pil2 : PilBackend Img2) (dumps : J → String) (bleach : String → String)
    (e : PhotoEntry J) (hid : e.id.isSome = true) :
    processEntry pil1 dumps bleach e = processEntry pil2 dumps bleach e ∧
    (∀ p : String, e.photo = some p → p ≠ "" →
      processEntry pil1 dumps bleach e = some
        { photo_data := p
          photo_thumbnail := some (e.thumbnail.getD "")
          file_size := 0
          location := sanitize_input bleach e.location
          city := sanitize_input bleach e.city
          region := sanitize_input bleach e.region
          country := sanitize_input bleach e.country
          coordinates := serializeCoordinates dumps e.coordinates
          date := sanitize_input bleach e.date
          sex := sanitize_input bleach e.sex
          note := sanitize_input bleach e.note }) := by
  have hnone : e.id.isNone = false := by
    cases hi : e.id
    · rw [hi] at hid
      cases hid
    · rfl
  constructor
  · unfold processEntry
    cases e.photo with
    | none => rfl
    | some p =>
        dsimp only
        by_cases hp : p = ""
        · rw [if_pos hp, if_pos hp]
        · rw [if_neg hp, if_neg hp, hnone]
          rfl
  · intro p hp hpne
    unfold processEntry
    rw [hp]
    dsimp only
    rw [if_neg hpne, hnone]
    rfl

/-- C7, witness: a concrete id-carrying entry is stored as supplied under
two different codec backends. -/
theorem C7_precompressed_kept_witness :
    entryPre.id.isSome = true ∧
    (processEntry pil0 dumps0 bleach0 entryPre =
        processEntry pilNoDecode dumps0 bleach0 entryPre ∧
      (∀ p : String, entryPre.photo = some p → p ≠ "" →
        processEntry pil0 dumps0 bleach0 entryPre = some
          { photo_data := p
            photo_thumbnail := some (entryPre.thumbnail.getD "")
            file_size := 0
            location := sanitize_input bleach0 entryPre.location
            city := sanitize_input bleach0 entryPre.city
            region := sanitize_input bleach0 entryPre.region
            country := sanitize_input bleach0 entryPre.country
            coordinates := serializeCoordinates dumps0 entryPre.coordinates
            date := sanitize_input bleach0 entryPre.date
            sex := sanitize_input bleach0 entryPre.sex
            note := sanitize_input bleach0 entryPre.note })) :=
  ⟨by decide, C7_precompressed_kept pil0 pilNoDecode dumps0 bleach0 entryPre (by decide)⟩

/-- C9: a structured coordinates value is serialized to its canonical
text form by the write path and deserialized back to the original
structured value by the read projections, when the external json codec
round-trips and never serializes an object to the empty string; a stored
text the json codec cannot parse falls back to the empty value. -/
theorem C9_coordinates_roundtrip {J : Type} (dumps : J → String)
    (loads : String → Option J) (j : J) (hne : dumps j ≠ "")
    (hrt : loads (dumps j) = some j) :
    serializeCoordinates dumps (CoordVal.obj j) = dumps j ∧
    parseCoordinates loads (serializeCoordinates dumps (CoordVal.obj j)) =
      CoordVal.obj j ∧
    (∀ s : String, s ≠ "" → loads s = none →
      parseCoordinates loads s = CoordVal.str "") ∧
    (∀ (Img : Type) (pil : PilBackend Img) (bleach : String → String)
        (e : PhotoEntry J) (fl : PhotoFields), e.coordinates = CoordVal.obj j →
      processEntry pil dumps bleach e = some fl →
      fl.coordinates = dumps j ∧ (fieldsProj loads fl).coordinates = CoordVal.obj j) := by
  have hser : serializeCoordinates dumps (CoordVal.obj j) = dumps j := rfl
  have hpar : parseCoordinates loads (dumps j) = CoordVal.obj j := by
    unfold parseCoordinates
    rw [if_neg hne, hrt]
  refine ⟨hser, by rw [hser, hpar], ?_, ?_⟩
  · intro s hs hl
    unfold parseCoordinates
    rw [if_neg hs, hl]
  · intro Img pil bleach e fl hco hpe
    have hfl : fl.coordinates = dumps j := by
      unfold processEntry at hpe
      cases hp : e.photo with
      | none => rw [hp] at hpe; cases hpe
      | some p =>
          rw [hp] at hpe
          dsimp only at hpe
          by_cases hpne : p = ""
          · rw [if_pos hpne] at hpe
            cases hpe
          · rw [if_neg hpne] at hpe
            injection hpe with hpe
            rw [← hpe]
            show serializeCoordinates dumps e.coordinates = dumps j
            rw [hco]
            exact hser
    refine ⟨hfl, ?_⟩
    show parseCoordinates loads fl.coordinates = CoordVal.obj j
    rw [hfl, hpar]

/-- C9, witness with a concrete two-value json codec. -/
theorem C9_coordinates_roundtrip_witness :
    (dumps0 true ≠ "" ∧ loads0 (dumps0 true) = some true) ∧
    (serializeCoordinates dumps0 (CoordVal.obj true) = dumps0 true ∧
      parseCoordinates loads0 (serializeCoordinates dumps0 (CoordVal.obj true)) =
        CoordVal.obj true ∧
      (∀ s : String, s ≠ "" → loads0 s = none →
        parseCoordinates loads0 s = CoordVal.str "") ∧
      (∀ (Img : Type) (pil : PilBackend Img) (bleach : String → String)
          (e : PhotoEntry Bool) (fl : PhotoFields),
        e.coordinates = CoordVal.obj true →
        processEntry pil dumps0 bleach e = some fl →
        fl.coordinates = dumps0 true ∧
          (fieldsProj loads0 fl).coordinates = CoordVal.obj true)) :=
  ⟨⟨by decide, by decide⟩,
    C9_coordinates_roundtrip dumps0 loads0 true (by decide) (by decide)⟩

/-- C2: whenever a synchronization request fails mid-procedure (any SQL
statement or the final commit raising), the durable store and the cache
are left exactly as before the request, and the caller sees the single
persistence failure; an authenticated, non-empty request always ends in
either success or that single rolled-back failure. -/
theorem C2_rollback_on_failure {J Img : Type} (pil : PilBackend Img)
    (dumps : J → String) (bleach : String → String) (fail : FailOracle)
    (session : Option Nat) (data : List (String × BirdData J)) (now : Nat)
    (st : Store) (ch : Caches J) :
    ((save_discoveries pil dumps bleach fail session data now st ch).1 =
        SaveOutcome.persistenceFailure →
      (save_discoveries pil dumps bleach fail session data now st ch).2.1 = st ∧
      (save_discoveries pil dumps bleach fail session data now st ch).2.2 = ch) ∧
    (∀ u : Nat, session = some u → data ≠ [] →
      (save_discoveries pil dumps bleach fail session data now st ch).1 =
          SaveOutcome.success ∨
      (save_discoveries pil dumps bleach fail session data now st ch).1 =
          SaveOutcome.persistenceFailure) := by
  cases session with
  | none =>
      refine ⟨(fun h => nomatch h), (fun u hu => nomatch hu)⟩
  | some u =>
      simp only [save_discoveries]
      by_cases hd : data.isEmpty
      · rw [if_pos hd]
        refine ⟨(fun h => nomatch h), ?_⟩
        intro u' _ hne
        exact absurd (List.isEmpty_iff.mp hd) hne
      · rw [if_neg hd]
        cases hfold : data.foldlM
            (fun t p => syncBird pil dumps bleach fail u now t p.1 p.2) ⟨st, 0⟩ with
        | error e =>
            exact ⟨fun _ => ⟨rfl, rfl⟩, fun _ _ _ => Or.inr rfl⟩
        | ok t =>
            dsimp only
            by_cases hf : fail t.k
            · rw [if_pos hf]
              exact ⟨fun _ => ⟨rfl, rfl⟩, fun _ _ _ => Or.inr rfl⟩
            · rw [if_neg hf]
              exact ⟨(fun h => nomatch h), (fun _ _ _ => Or.inl rfl)⟩

/-- C2, witness: a concrete request on which the very first SQL
statement fails answers with the persistence failure and leaves the
store and the cache untouched. -/
theorem C2_rollback_on_failure_witness :
    (save_discoveries pil0 dumps0 bleach0 (fun _ => true) (some 7) data1 100 st0 chB0).1 =
        SaveOutcome.persistenceFailure ∧
    (save_discoveries pil0 dumps0 bleach0 (fun _ => true) (some 7) data1 100 st0 chB0).2.1 =
        st0 ∧
    (save_discoveries pil0 dumps0 bleach0 (fun _ => true) (some 7) data1 100 st0 chB0).2.2 =
        chB0 :=
  ⟨by decide,
    (C2_rollback_on_failure pil0 dumps0 bleach0 (fun _ => true) (some 7) data1 100
      st0 chB0).1 (by decide)⟩

/-- C5: after any successful synchronization, every (user, species) pair
still has at most one discovery row, and a species the user already had
keeps its single existing row — same id, same first-seen timestamp —
with its updated-at touched to the request timestamp. -/
theorem C5_discovery_unique_touch {J Img : Type} (pil : PilBackend Img)
    (dumps : J → String) (bleach : String → String) (u now : Nat) (st : Store)
    (ch : Caches J) (data : List (String × BirdData J)) (hwf : st.WF)
    (hnd : (data.map Prod.fst).Nodup) (hne : data ≠ []) :
    (∀ (u' : Nat) (b' : String),
      (discsUB (save_discoveries pil dumps bleach noFail (some u) data now st ch).2.1
        u' b').length ≤ 1) ∧
    (∀ (b : String) (bd : BirdData J) (d0 : DiscRow), (b, bd) ∈ data →
      findDiscovery st u b = some d0 →
      discsUB (save_discoveries pil dumps bleach noFail (some u) data now st ch).2.1
        u b = [{ d0 with updated_at := now }]) := by
  rw [save_discoveries_noFail pil dumps bleach u now data st ch hne]
  dsimp only
  constructor
  · intro u' b'
    have hwfF := WF_runSyncPure pil dumps bleach u now data st hwf
    exact filter_length_le_one_of_pairwise _ _ (pairwise_discPred hwfF.2.1)
  · intro b bd d0 hmem hfind0
    obtain ⟨d, startId, _, _, _, _, htouch, hdi, _⟩ :=
      store_after_sync pil dumps bleach u now st data hwf hnd hmem
    rw [hdi, htouch d0 hfind0]

def st1w : Store :=
  (save_discoveries pil0 dumps0 bleach0 noFail (some 7) data1 100 st0 chB0).2.1

/-- C5, witness: resyncing a store that already holds the species leaves
one touched row. -/
theorem C5_discovery_unique_touch_witness :
    st1w.WF ∧ (data1.map Prod.fst).Nodup ∧ data1 ≠ [] ∧
    ((∀ (u' : Nat) (b' : String),
      (discsUB (save_discoveries pil0 dumps0 bleach0 noFail (some 7) data1 200 st1w
        chB0).2.1 u' b').length ≤ 1) ∧
    (∀ (b : String) (bd : BirdData Bool) (d0 : DiscRow), (b, bd) ∈ data1 →
      findDiscovery st1w 7 b = some d0 →
      discsUB (save_discoveries pil0 dumps0 bleach0 noFail (some 7) data1 200 st1w
        chB0).2.1 7 b = [{ d0 with updated_at := 200 }])) :=
  ⟨by decide, by decide, by decide,
    C5_discovery_unique_touch pil0 dumps0 bleach0 7 200 st1w chB0 data1 (by decide)
      (by decide) (by decide)⟩

/-- C6: synchronizing the same snapshot twice leaves, for every species
of this user, a stored photo set whose rows' contents after the second
run are identical to those after the first — rows are replaced per
species, never appended. -/
theorem C6_sync_idempotent {J Img : Type} (pil : PilBackend Img) (dumps : J → String)
    (bleach : String → String) (u now1 now2 : Nat) (st : Store) (ch1 ch2 : Caches J)
    (data : List (String × BirdData J)) (hwf : st.WF)
    (hnd : (data.map Prod.fst).Nodup) (hne : data ≠ []) :
    ∀ b : String,
      (photosUB (save_discoveries pil dumps bleach noFail (some u) data now2
          (save_discoveries pil dumps bleach noFail (some u) data now1 st ch1).2.1
          ch2).2.1 u b).map (fun r => r.fields) =
      (photosUB (save_discoveries pil dumps bleach noFail (some u) data now1 st
          ch1).2.1 u b).map (fun r => r.fields) := by
  rw [save_discoveries_noFail pil dumps bleach u now1 data st ch1 hne]
  dsimp only
  have hwf1 : (runSyncPure pil dumps bleach u now1 st data).WF :=
    WF_runSyncPure pil dumps bleach u now1 data st hwf
  set st1 := runSyncPure pil dumps bleach u now1 st data with hst1
  rw [save_discoveries_noFail pil dumps bleach u now2 data st1 ch2 hne]
  dsimp only
  intro b
  by_cases hb : b ∈ data.map Prod.fst
  · obtain ⟨q, hqmem, hqeq⟩ := List.mem_map.mp hb
    obtain ⟨b', bd⟩ := q
    cases hqeq
    obtain ⟨d1, s1, _, _, _, _, _, _, hph1⟩ :=
      store_after_sync pil dumps bleach u now1 st data hwf hnd hqmem
    obtain ⟨d2, s2, _, _, _, _, _, _, hph2⟩ :=
      store_after_sync pil dumps bleach u now2 st1 data hwf1 hnd hqmem
    rw [← hst1] at hph1
    rw [hph1, hph2, rowsFrom_map_fields, rowsFrom_map_fields]
  · have hframe : ∀ q ∈ data, ¬(u = u ∧ b = q.1) := fun q hq hc =>
      hb (hc.2 ▸ List.mem_map_of_mem Prod.fst hq)
    rw [photosUB_runSyncPure_frame pil dumps bleach u now2 data st1 hwf1 u b hframe]

/-- C6, witness: a concrete snapshot synchronized twice stores the same
photo contents both times. -/
theorem C6_sync_idempotent_witness :
    st0.WF ∧ (data1.map Prod.fst).Nodup ∧ data1 ≠ [] ∧
    (∀ b : String,
      (photosUB (save_discoveries pil0 dumps0 bleach0 noFail (some 7) data1 200
          (save_discoveries pil0 dumps0 bleach0 noFail (some 7) data1 100 st0
            chB0).2.1 chB0).2.1 7 b).map (fun r => r.fields) =
      (photosUB (save_discoveries pil0 dumps0 bleach0 noFail (some 7) data1 100 st0
          chB0).2.1 7 b).map (fun r => r.fields)) :=
  ⟨by decide, by decide, by decide,
    C6_sync_idempotent pil0 dumps0 bleach0 7 100 200 st0 chB0 chB0 data1 (by decide)
      (by decide) (by decide)⟩

/-- C4: a committed write invalidates every cache entry this owner has —
the three cached view keys all come back empty — and each of the four
read projections served right after the write equals the projection
recomputed from the post-write store with no cache at all (the gallery
never consults the cache), so no read returns a photo set predating the
write; cache entries are modelled without expiry, i.e. as if every TTL
were still running. -/
theorem C4_read_your_writes {J Img : Type} (pil : PilBackend Img) (dumps : J → String)
    (bleach : String → String) (loads : String → Option J) (u now : Nat) (st : Store)
    (ch : Caches J) (data : List (String × BirdData J)) (page perPage : Nat)
    (hne : data ≠ []) :
    (save_discoveries pil dumps bleach noFail (some u) data now st ch).1 =
        SaveOutcome.success ∧
    cacheGet (save_discoveries pil dumps bleach noFail (some u) data now st ch).2.2.v2
        u = none ∧
    cacheGet (save_discoveries pil dumps bleach noFail (some u) data now st ch).2.2.meta
        u = none ∧
    cacheGet (save_discoveries pil dumps bleach noFail (some u) data now st ch).2.2.light
        u = none ∧
    (get_discoveries loads (some u)
        (save_discoveries pil dumps bleach noFail (some u) data now st ch).2.1
        (save_discoveries pil dumps bleach noFail (some u) data now st ch).2.2).1 =
      (get_discoveries loads (some u)
        (save_discoveries pil dumps bleach noFail (some u) data now st ch).2.1
        (emptyCaches J)).1 ∧
    (discoveries_metadata (some u)
        (save_discoveries pil dumps bleach noFail (some u) data now st ch).2.1
        (save_discoveries pil dumps bleach noFail (some u) data now st ch).2.2).1 =
      (discoveries_metadata (some u)
        (save_discoveries pil dumps bleach noFail (some u) data now st ch).2.1
        (emptyCaches J)).1 ∧
    (get_discoveries_light loads (some u)
        (save_discoveries pil dumps bleach noFail (some u) data now st ch).2.1
        (save_discoveries pil dumps bleach noFail (some u) data now st ch).2.2).1 =
      (get_discoveries_light loads (some u)
        (save_discoveries pil dumps bleach noFail (some u) data now st ch).2.1
        (emptyCaches J)).1 ∧
    (discoveries_gallery (some u) page perPage
        (save_discoveries pil dumps bleach noFail (some u) data now st ch).2.1
        (save_discoveries pil dumps bleach noFail (some u) data now st ch).2.2).1 =
      (discoveries_gallery (some u) page perPage
        (save_discoveries pil dumps bleach noFail (some u) data now st ch).2.1
        (emptyCaches J)).1 := by
  rw [save_discoveries_noFail pil dumps bleach u now data st ch hne]
  dsimp only
  refine ⟨rfl, cacheGet_cacheDel ch.v2 u, cacheGet_cacheDel ch.meta u,
    cacheGet_cacheDel ch.light u, ?_, ?_, ?_, rfl⟩
  · rw [get_discoveries_fresh loads u _ (invalidateUser ch u)
        (cacheGet_cacheDel ch.v2 u),
      get_discoveries_fresh loads u _ (emptyCaches J) (cacheGet_nil u)]
  · rw [discoveries_metadata_fresh u _ (invalidateUser ch u)
        (cacheGet_cacheDel ch.meta u),
      discoveries_metadata_fresh u _ (emptyCaches J) (cacheGet_nil u)]
  · rw [get_discoveries_light_fresh loads u _ (invalidateUser ch u)
        (cacheGet_cacheDel ch.light u),
      get_discoveries_light_fresh loads u _ (emptyCaches J) (cacheGet_nil u)]

/-- C4, witness at a concrete committed write. -/
theorem C4_read_your_writes_witness :
    data1 ≠ [] ∧
    ((save_discoveries pil0 dumps0 bleach0 noFail (some 7) data1 100 st0 chB0).1 =
        SaveOutcome.success ∧
    cacheGet (save_discoveries pil0 dumps0 bleach0 noFail (some 7) data1 100 st0
        chB0).2.2.v2 7 = none ∧
    cacheGet (save_discoveries pil0 dumps0 bleach0 noFail (some 7) data1 100 st0
        chB0).2.2.meta 7 = none ∧
    cacheGet (save_discoveries pil0 dumps0 bleach0 noFail (some 7) data1 100 st0
        chB0).2.2.light 7 = none ∧
    (get_discoveries loads0 (some 7)
        (save_discoveries pil0 dumps0 bleach0 noFail (some 7) data1 100 st0 chB0).2.1
        (save_discoveries pil0 dumps0 bleach0 noFail (some 7) data1 100 st0 chB0).2.2).1 =
      (get_discoveries loads0 (some 7)
        (save_discoveries pil0 dumps0 bleach0 noFail (some 7) data1 100 st0 chB0).2.1
        (emptyCaches Bool)).1 ∧
    (discoveries_metadata (some 7)
        (save_discoveries pil0 dumps0 bleach0 noFail (some 7) data1 100 st0 chB0).2.1
        (save_discoveries pil0 dumps0 bleach0 noFail (some 7) data1 100 st0 chB0).2.2).1 =
      (discoveries_metadata (some 7)
        (save_discoveries pil0 dumps0 bleach0 noFail (some 7) data1 100 st0 chB0).2.1
        (emptyCaches Bool)).1 ∧
    (get_discoveries_light loads0 (some 7)
        (save_discoveries pil0 dumps0 bleach0 noFail (some 7) data1 100 st0 chB0).2.1
        (save_discoveries pil0 dumps0 bleach0 noFail (some 7) data1 100 st0 chB0).2.2).1 =
      (get_discoveries_light loads0 (some 7)
        (save_discoveries pil0 dumps0 bleach0 noFail (some 7) data1 100 st0 chB0).2.1
        (emptyCaches Bool)).1 ∧
    (discoveries_gallery (some 7) 1 12
        (save_discoveries pil0 dumps0 bleach0 noFail (some 7) data1 100 st0 chB0).2.1
        (save_discoveries pil0 dumps0 bleach0 noFail (some 7) data1 100 st0 chB0).2.2).1 =
      (discoveries_gallery (some 7) 1 12
        (save_discoveries pil0 dumps0 bleach0 noFail (some 7) data1 100 st0 chB0).2.1
        (emptyCaches Bool)).1) :=
  ⟨by decide,
    C4_read_your_writes pil0 dumps0 bleach0 loads0 7 100 st0 chB0 data1 1 12 (by decide)⟩

/-- C1: after a successful synchronization, every species of the request
exists as a discovery of the owner, and reading the full view back (the
cache entries having been invalidated by the write) yields for that
species exactly the submitted photo entries in submission order, each as
stored by the per-entry processing, with the entries lacking an image
payload (and only those) silently dropped. -/
theorem C1_sync_then_read {J Img : Type} (pil : PilBackend Img) (dumps : J → String)
    (bleach : String → String) (loads : String → Option J) (u now : Nat) (st : Store)
    (ch : Caches J) (data : List (String × BirdData J)) (hwf : st.WF)
    (hnd : (data.map Prod.fst).Nodup) (b : String) (bd : BirdData J)
    (hmem : (b, bd) ∈ data) :
    (save_discoveries pil dumps bleach noFail (some u) data now st ch).1 =
        SaveOutcome.success ∧
    (∃ d : DiscRow,
      findDiscovery
          (save_discoveries pil dumps bleach noFail (some u) data now st ch).2.1 u b =
        some d ∧ d.user_id = u ∧ d.bird_number = b) ∧
    (∃ (view : FullView J) (entry : FullEntry J),
      (get_discoveries loads (some u)
          (save_discoveries pil dumps bleach noFail (some u) data now st ch).2.1
          (save_discoveries pil dumps bleach noFail (some u) data now st ch).2.2).1 =
        Except.ok view ∧
      List.lookup b view = some entry ∧
      entry.photos.map PhotoProj.content =
        ((bd.photos.getD []).filterMap (processEntry pil dumps bleach)).map
          (fieldsProj loads)) ∧
    (∀ e : PhotoEntry J, processEntry pil dumps bleach e = none ↔ hasPayload e = false) := by
  have hne : data ≠ [] := by
    intro h
    rw [h] at hmem
    exact List.not_mem_nil _ hmem
  rw [save_discoveries_noFail pil dumps bleach u now data st ch hne]
  dsimp only
  obtain ⟨d, startId, hfindF, hdu, hdb, hstart, htouch, hdi, hph⟩ :=
    store_after_sync pil dumps bleach u now st data hwf hnd hmem
  have hwfF := WF_runSyncPure pil dumps bleach u now data st hwf
  obtain ⟨entry, hlook, hda, hcontent⟩ :=
    lookup_buildFull_after_sync pil dumps bleach loads hwfF hfindF hdi hph hstart
  refine ⟨rfl, ⟨d, hfindF, hdu, hdb⟩,
    ⟨buildFull loads (joinedRows (runSyncPure pil dumps bleach u now st data) u), entry,
      ?_, hlook, hcontent⟩,
    processEntry_none_iff pil dumps bleach⟩
  rw [get_discoveries_fresh loads u _ (invalidateUser ch u) (cacheGet_cacheDel ch.v2 u)]

/-- C1, witness: a concrete request with a fresh photo, a pre-compressed
photo and a payload-less entry reads back exactly the two kept photos in
order. -/
theorem C1_sync_then_read_witness :
    st0.WF ∧ (data1.map Prod.fst).Nodup ∧ ("0001", bd1) ∈ data1 ∧
    ((save_discoveries pil0 dumps0 bleach0 noFail (some 7) data1 100 st0 chB0).1 =
        SaveOutcome.success ∧
    (∃ d : DiscRow,
      findDiscovery
          (save_discoveries pil0 dumps0 bleach0 noFail (some 7) data1 100 st0
            chB0).2.1 7 "0001" =
        some d ∧ d.user_id = 7 ∧ d.bird_number = "0001") ∧
    (∃ (view : FullView Bool) (entry : FullEntry Bool),
      (get_discoveries loads0 (some 7)
          (save_discoveries pil0 dumps0 bleach0 noFail (some 7) data1 100 st0 chB0).2.1
          (save_discoveries pil0 dumps0 bleach0 noFail (some 7) data1 100 st0
            chB0).2.2).1 =
        Except.ok view ∧
      List.lookup "0001" view = some entry ∧
      entry.photos.map PhotoProj.content =
        ((bd1.photos.getD []).filterMap (processEntry pil0 dumps0 bleach0)).map
          (fieldsProj loads0)) ∧
    (∀ e : PhotoEntry Bool,
      processEntry pil0 dumps0 bleach0 e = none ↔ hasPayload e = false)) :=
  ⟨by decide, by decide, by decide,
    C1_sync_then_read pil0 dumps0 bleach0 loads0 7 100 st0 chB0 data1 (by decide)
      (by decide) "0001" bd1 (by decide)⟩

end Birdex
